import Mathlib

/-!
Verification of the AI-Benchmark-Metadata scraping scripts.

This file gives a shallow embedding, in Lean 4, of the parts of the
repository's Python scripts that the specification's testable claims are
about, and proves (or refutes) each claim against that embedding.

Python strings are modelled as `List Char` (`Str`).  Pure string/regex
manipulation is translated function-by-function from the source; the
HTML-parsing layer (BeautifulSoup) is abstracted by structures whose fields
hold exactly the values the source code reads out of the parsed page
(selector results, tag attributes, tag text), so that each extraction
function can be translated statement-by-statement.  Network and filesystem
effects are modelled by explicit oracles / state threading.

Sources embedded here:
  - src/paperswithcode_scraper.py   (crawl loop, page store, progress ledger)
  - src/huggingface_dataset_scraper.py (page store)
  - src/huggingface_html_2_csv.py   (field extractor, tabular writer)
  - src/paperswithcode_html_2_csv.py (field extractor, tabular writer)
-/

set_option maxRecDepth 4096

/-- Python strings, modelled as lists of characters. -/
abbrev Str := List Char

/-- Coerce a Lean string literal into the model's string type. -/
def str (s : String) : Str := s.toList

/-- Python's `\s` class (whitespace): space, tab, newline, CR, FF, VT. -/
def pyIsSpace (c : Char) : Bool :=
  c = ' ' || c = '\t' || c = '\n' || c = '\x0d' || c = '\x0c' || c = '\x0b'

/-- Python's `\w` class (word character), restricted to the ASCII range the
repository's inputs use: letters, digits and underscore. -/
def pyIsWordChar (c : Char) : Bool :=
  c.isAlphanum || c = '_'

/-! ### Page Store path sanitisation (src/paperswithcode_scraper.py, save_dataset_page)

`save_dataset_page` builds every path component with
`re.sub(r'[^\w\-\.]', '_', name)` followed by a slice `[:50]` (dataset name)
or `[:30]` (area / subtask / task). -/

/-- Characters kept by `re.sub(r'[^\w\-\.]', '_', name)`: word characters,
hyphen and dot.  Everything else is replaced by an underscore. -/
def allowedPathChar (c : Char) : Bool :=
  pyIsWordChar c || c = '-' || c = '.'

/-- `re.sub(r'[^\w\-\.]', '_', name)`. -/
def sanitize_component (s : Str) : Str :=
  s.map (fun c => if allowedPathChar c then c else '_')

/-- `dataset_name = re.sub(...)[:50]` in `save_dataset_page`. -/
def dataset_name_component (s : Str) : Str := (sanitize_component s).take 50

/-- `area_name = re.sub(...)[:30]` in `save_dataset_page`. -/
def area_name_component (s : Str) : Str := (sanitize_component s).take 30

/-- `subtask_name = re.sub(...)[:30]` in `save_dataset_page`. -/
def subtask_name_component (s : Str) : Str := (sanitize_component s).take 30

/-- `task_name = re.sub(...)[:30]` in `save_dataset_page`. -/
def task_name_component (s : Str) : Str := (sanitize_component s).take 30

/-! ### Generic Python string helpers -/

/-- Substring containment, Python's `needle in hay`. -/
def containsSub (needle hay : Str) : Bool :=
  (List.range (hay.length + 1)).any (fun i => needle.isPrefixOf (hay.drop i))

/-- Python's `str.lower()` (ASCII range). -/
def pyLower (s : Str) : Str := s.map Char.toLower

/-- Python's `str.strip()`: drop leading and trailing whitespace. -/
def pyStrip (s : Str) : Str :=
  ((s.dropWhile (fun c => pyIsSpace c)).reverse.dropWhile (fun c => pyIsSpace c)).reverse

/-- Fuel-driven worker for `collapseWs` (structural recursion on the fuel so
that the kernel can evaluate it; `fuel = s.length` always suffices because
every step consumes at least one character). -/
def collapseWsAux : Nat → Str → Str
  | _, [] => []
  | 0, s => s
  | fuel + 1, c :: rest =>
    if pyIsSpace c then
      ' ' :: collapseWsAux fuel (rest.dropWhile (fun d => pyIsSpace d))
    else
      c :: collapseWsAux fuel rest

/-- `re.sub(r'\s+', ' ', s)`: collapse every whitespace run to one space. -/
def collapseWs (s : Str) : Str := collapseWsAux s.length s

/-- Fuel-driven worker for `pyReplace` (structural recursion on the fuel;
`fuel = s.length` always suffices because every step consumes at least one
character). -/
def pyReplaceAux (pat rep : Str) : Nat → Str → Str
  | _, [] => []
  | 0, s => s
  | fuel + 1, c :: rest =>
    if pat ≠ [] ∧ pat.isPrefixOf (c :: rest) then
      rep ++ pyReplaceAux pat rep fuel ((c :: rest).drop pat.length)
    else
      c :: pyReplaceAux pat rep fuel rest

/-- Python's `str.replace(pat, rep)`: replace every (leftmost, non-overlapping)
occurrence of `pat` by `rep`.  The scripts only call it with non-empty `pat`;
for `pat = []` we return the input unchanged. -/
def pyReplace (pat rep : Str) (s : Str) : Str := pyReplaceAux pat rep s.length s

/-- Python's `str.title()` for the ASCII inputs used here: the first letter
of each maximal alphanumeric run is upper-cased, the rest lower-cased. -/
def pyTitleAux : Bool → Str → Str
  | _, [] => []
  | prevAlnum, c :: rest =>
    if c.isAlphanum then
      (if prevAlnum then c.toLower else c.toUpper) :: pyTitleAux true rest
    else
      c :: pyTitleAux false rest

/-- Python's `str.title()`. -/
def pyTitle (s : Str) : Str := pyTitleAux false s

/-- `urllib.parse.urljoin(base, href)` for the href shapes the scrapers
produce: an empty href yields the base, an absolute `http...` href is kept,
and a site-relative href is appended to the base. -/
def urljoin (base href : Str) : Str :=
  if href = [] then base
  else if (str "http").isPrefixOf href then href
  else base ++ href

/-! ### Crawl Frontier (src/paperswithcode_scraper.py) -/

def BASE_URL : Str := str "https://paperswithcode.com"

/-- `parsed_url.path.strip('/').split('/')`, then (when more than one part)
`path_parts[-1].replace('-', ' ').title()`: the display-name fallback used
when an anchor has no text.  `afterHost` drops the `https://host` prefix. -/
def nameFromUrlPath (url : Str) : Str :=
  let afterScheme := if (str "https://").isPrefixOf url then url.drop 8
                     else if (str "http://").isPrefixOf url then url.drop 7
                     else url
  let path := afterScheme.dropWhile (fun c => c ≠ '/')
  let stripped := (path.dropWhile (fun c => c = '/')).reverse.dropWhile (fun c => c = '/')
  let parts := List.splitOn '/' stripped.reverse
  if parts.length > 1 then
    pyTitle (pyReplace (str "-") (str " ") (parts.getLast!))
  else
    []

/-- A task node as carried through the crawl loop (a Python dict with
`name`, `url`, `subtask`, `area`). -/
structure TaskNode where
  name : Str
  url : Str
  subtask : Str
  area : Str
deriving DecidableEq

/-- A dataset node produced by `extract_datasets_from_task_page` (a Python
dict with `name`, `url`, `task`, `subtask`, `area` and an optional
`is_synthetic` flag read back via `dataset.get('is_synthetic', False)`). -/
structure DatasetNode where
  name : Str
  url : Str
  task : Str
  subtask : Str
  area : Str
  is_synthetic : Bool := false
deriving DecidableEq

/-- An anchor element as the extractors read it: its `href` attribute and its
stripped text content. -/
structure RawLink where
  text : Str
  href : Str
deriving DecidableEq

/-- The slice of a parsed task page that `extract_datasets_from_task_page`
reads: the dataset links found by each of its three selector approaches
(links after the `datasets` heading, `a[href^="/dataset/"]` anywhere, links
inside `div.dataset-card` whose href contains `/dataset/`). -/
structure TaskPage where
  headingLinks : List RawLink
  directLinks : List RawLink
  cardLinks : List RawLink

/-- Build one dataset dict from an anchor, as all three approaches do:
join the href onto the base URL, take the anchor text as the name (falling
back to the URL's last path segment when the text is empty), and keep the
node only when both are non-empty. -/
def datasetFromLink (task : TaskNode) (link : RawLink) : Option DatasetNode :=
  let dataset_url := urljoin BASE_URL link.href
  let dataset_name := if link.text = [] then nameFromUrlPath dataset_url else link.text
  if dataset_url ≠ [] ∧ dataset_name ≠ [] then
    some { name := dataset_name, url := dataset_url, task := task.name,
           subtask := task.subtask, area := task.area }
  else
    none

/-- The synthetic fallback dataset built from a task:
`dataset_name = f"{task['name']} Dataset"`,
`dataset_url = task['url'].replace('/task/', '/dataset/')`. -/
def syntheticDataset (task : TaskNode) : DatasetNode :=
  { name := task.name ++ str " Dataset",
    url := pyReplace (str "/task/") (str "/dataset/") task.url,
    task := task.name, subtask := task.subtask, area := task.area,
    is_synthetic := true }

/-- `extract_datasets_from_task_page(task, html_content)`.
`html = none` models `html_content is None` (the not-found signal).
For a parsed page, each approach is tried in turn and the first one that
yields a non-empty dataset list wins; otherwise the synthetic fallback is
attempted, and it produces a node only when replacing `/task/` by
`/dataset/` actually changed the URL. -/
def extract_datasets_from_task_page (task : TaskNode) (html : Option TaskPage) :
    List DatasetNode :=
  match html with
  | none =>
    let dataset_url := pyReplace (str "/task/") (str "/dataset/") task.url
    if dataset_url ≠ task.url then [syntheticDataset task] else []
  | some page =>
    let approach1 := page.headingLinks.filterMap (datasetFromLink task)
    if approach1 ≠ [] then approach1
    else
      let approach2 := page.directLinks.filterMap (datasetFromLink task)
      if approach2 ≠ [] then approach2
      else
        let approach3 := page.cardLinks.filterMap (datasetFromLink task)
        if approach3 ≠ [] then approach3
        else
          let dataset_url := pyReplace (str "/task/") (str "/dataset/") task.url
          if dataset_url ≠ task.url then [syntheticDataset task] else []

/-! ### Python dict model and subtask extraction (src/paperswithcode_scraper.py)

`extract_subtasks_from_area_page` (and `extract_areas_from_sota_page`)
de-duplicate by assigning into a Python dict keyed by URL:
`unique_subtasks[subtask_url] = {...}`.  A Python dict keeps a re-assigned
key at its original position but overwrites the stored value; we model a
dict as an association list with that exact update rule. -/

/-- `k in m` for a Python dict. -/
def containsKey {V : Type} (m : List (Str × V)) (k : Str) : Bool :=
  m.any (fun p => p.1 = k)

/-- `m[k] = v` for a Python dict: overwrite in place if the key exists
(keeping its position), otherwise append at the end. -/
def pyDictSet {V : Type} (m : List (Str × V)) (k : Str) (v : V) : List (Str × V) :=
  if containsKey m k then
    m.map (fun p => if p.1 = k then (k, v) else p)
  else m ++ [(k, v)]

/-- Build a Python dict by assigning the pairs of `l` in order into an
initially empty dict. -/
def pyDictOf {V : Type} (l : List (Str × V)) : List (Str × V) :=
  l.foldl (fun m kv => pyDictSet m kv.1 kv.2) []

/-- `list(m.values())` for a Python dict. -/
def pyDictValues {V : Type} (m : List (Str × V)) : List V := m.map Prod.snd

/-- `m[k]` lookup (first pair with the key; Python dicts have unique keys). -/
def dictGet? {V : Type} : List (Str × V) → Str → Option V
  | [], _ => none
  | p :: m, k => if p.1 = k then some p.2 else dictGet? m k

/-- The value of the last pair of `l` carrying key `k`, if any: the value a
Python dict holds for `k` after assigning all pairs of `l` in order. -/
def lastAssoc {V : Type} : List (Str × V) → Str → Option V
  | [], _ => none
  | (a, b) :: t, k =>
    match lastAssoc t k with
    | some v => some v
    | none => if k = a then some b else none

/-- Keep the first occurrence of each element, dropping later duplicates:
the key order of a Python dict built by repeated assignment. -/
def dedupFirst : List Str → List Str
  | [] => []
  | k :: rest => k :: dedupFirst (rest.filter (fun x => x ≠ k))
termination_by l => l.length
decreasing_by
  have := List.length_filter_le (fun x => x ≠ k) rest
  simp only [List.length_cons]
  omega

/-- An area node (`{'name': ..., 'url': ...}`). -/
structure AreaNode where
  name : Str
  url : Str
deriving DecidableEq

/-- A subtask node (`{'name': ..., 'url': ..., 'area': ...}`). -/
structure SubtaskNode where
  name : Str
  url : Str
  area : Str
deriving DecidableEq

/-- The slice of a parsed area page that `extract_subtasks_from_area_page`
reads: the `a[href^="/task/"]` links inside the `div.sota-all-tasks` element
(`none` when that div is absent), the same selector over the whole page, and
the `/task/`-links collected from `div.card` elements. -/
structure AreaPage where
  sotaAllTasksLinks : Option (List RawLink)
  pageTaskLinks : List RawLink
  cardTaskLinks : List RawLink

/-- The `subtask_links` cascade of `extract_subtasks_from_area_page`:
approach 1 (links in `div.sota-all-tasks`), else approach 2 (all task links
on the page), else approach 3 (task links in cards). -/
def chosenSubtaskLinks (page : AreaPage) : List RawLink :=
  let l1 := page.sotaAllTasksLinks.getD []
  if l1 ≠ [] then l1
  else if page.pageTaskLinks ≠ [] then page.pageTaskLinks
  else page.cardTaskLinks

/-- Process one subtask link: join the href, take the anchor text as the
name (falling back to the URL's last path segment when empty), clean it with
`re.sub(r'\s+', ' ', name).strip()`, and keep the `(url, node)` pair only
when URL and name are non-empty. -/
def subtaskFromLink (area : AreaNode) (link : RawLink) : Option (Str × SubtaskNode) :=
  let subtask_url := urljoin BASE_URL link.href
  let raw_name := if link.text = [] then nameFromUrlPath subtask_url else link.text
  let subtask_name := pyStrip (collapseWs raw_name)
  if subtask_url ≠ [] ∧ subtask_name ≠ [] then
    some (subtask_url, { name := subtask_name, url := subtask_url, area := area.name })
  else
    none

/-- `extract_subtasks_from_area_page(area, html_content)`: pick the first
non-empty link cascade; if none, return `[]`; otherwise assign each
processed link into `unique_subtasks[subtask_url]` and return
`list(unique_subtasks.values())`. -/
def extract_subtasks_from_area_page (area : AreaNode) (page : AreaPage) :
    List SubtaskNode :=
  let subtask_links := chosenSubtaskLinks page
  if subtask_links = [] then []
  else
    pyDictValues (pyDictOf (subtask_links.filterMap (subtaskFromLink area)))

/-! ### Progress Ledger and crawl loop (src/paperswithcode_scraper.py)

`scrape_paperswithcode` walks areas → subtasks → tasks → datasets, skipping
any node whose URL is already in the matching `processed_*` list, fetching
each non-skipped node's page, and appending the URL to the matching list
after the node is fully processed.  We model the network as an oracle
`fetch : url → Option body`, the parsed pages as world-provided parse
results, and record every `download_page` call in a fetch log tagged with
its hierarchy level. -/

/-- The progress dictionary persisted to `pwc_scraper_progress.json`. -/
structure Ledger where
  processed_areas : List Str
  processed_subtasks : List Str
  processed_tasks : List Str
  processed_datasets : List Str
  downloaded_datasets : List Str
deriving DecidableEq

/-- The four hierarchy levels of the crawl. -/
inductive Level where
  | area
  | subtask
  | task
  | dataset
deriving DecidableEq

/-- The visited-URL list the crawl loop consults for each level. -/
def Ledger.visited (p : Ledger) : Level → List Str
  | Level.area => p.processed_areas
  | Level.subtask => p.processed_subtasks
  | Level.task => p.processed_tasks
  | Level.dataset => p.processed_datasets

/-- The world one crawl run sees: the network (url → page body, `none` on
404 / transport failure / empty body, all treated alike by the loop's
`if not html_content` guards) and the parse of each successfully fetched
page, as consumed by the extraction functions. -/
structure CrawlWorld where
  fetch : Str → Option Str
  areaPageOf : AreaNode → AreaPage
  taskPageOf : TaskNode → TaskPage

/-- `extract_tasks_from_subtask_page`: the subtask is returned as the single
task (`the subtask URL is already a task URL`). -/
def taskFromSubtask (st : SubtaskNode) : TaskNode :=
  { name := st.name, url := st.url, subtask := st.name, area := st.area }

/-- `os.path.join(dir_path, f"{dataset_name}.html")` with the directory
structure of `save_dataset_page` (subtask level elided when subtask and task
sanitise to the same name). -/
def dataset_file_path (d : DatasetNode) : Str :=
  let area_name := area_name_component d.area
  let subtask_name := subtask_name_component d.subtask
  let task_name := task_name_component d.task
  let dir_path :=
    if subtask_name = task_name then
      str "paperswithcode/" ++ area_name ++ str "/" ++ task_name
    else
      str "paperswithcode/" ++ area_name ++ str "/" ++ subtask_name ++ str "/" ++ task_name
  dir_path ++ str "/" ++ dataset_name_component d.name ++ str ".html"

/-- Placeholder body written for a synthetic dataset (the exact markup of
the f-string template is immaterial to the claims; only its presence is). -/
def synthetic_placeholder_html (d : DatasetNode) : Str :=
  str "<html><title>" ++ d.name ++ str "</title></html>"

/-- `save_dataset_page(dataset)` over an explicit filesystem
(path ↦ stored body) and network oracle.  Returns the success flag, the new
filesystem, and whether a network fetch was performed.  If the file already
exists the function returns `True` immediately; a synthetic dataset gets a
placeholder file without any fetch; otherwise the page is downloaded and
stored, failure leaving the filesystem unchanged. -/
def save_dataset_page (fetch : Str → Option Str) (files : List (Str × Str))
    (d : DatasetNode) : Bool × List (Str × Str) × Bool :=
  let file_path := dataset_file_path d
  if containsKey files file_path then (true, files, false)
  else if d.is_synthetic then
    (true, files ++ [(file_path, synthetic_placeholder_html d)], false)
  else
    match fetch d.url with
    | some body => (true, files ++ [(file_path, body)], true)
    | none => (false, files, true)

/-- The mutable state of one crawl run: the progress ledger, the page-store
filesystem, and the log of `download_page` calls tagged by level. -/
structure ScrapeState where
  ledger : Ledger
  files : List (Str × Str)
  fetchLog : List (Level × Str)

/-- Record one `download_page` call. -/
def logFetch (lvl : Level) (u : Str) (s : ScrapeState) : ScrapeState :=
  { s with fetchLog := s.fetchLog ++ [(lvl, u)] }

/-- The dataset step of the crawl loop: skip if already processed, otherwise
save the page (possibly fetching), record the URL in `downloaded_datasets`
on success, and always record it in `processed_datasets`. -/
def processDataset (w : CrawlWorld) (s : ScrapeState) (d : DatasetNode) : ScrapeState :=
  if d.url ∈ s.ledger.processed_datasets then s
  else
    let result := save_dataset_page w.fetch s.files d
    let s1 : ScrapeState :=
      { s with
        files := result.2.1,
        fetchLog := s.fetchLog ++ (if result.2.2 then [(Level.dataset, d.url)] else []) }
    let s2 : ScrapeState :=
      if result.1 then
        { s1 with ledger :=
          { s1.ledger with downloaded_datasets := s1.ledger.downloaded_datasets ++ [d.url] } }
      else s1
    { s2 with ledger :=
      { s2.ledger with processed_datasets := s2.ledger.processed_datasets ++ [d.url] } }

/-- The task step: skip if processed; fetch the task page; on failure just
continue; on success expand datasets via the Crawl Frontier and process
them, then mark the task processed. -/
def processTask (w : CrawlWorld) (s : ScrapeState) (t : TaskNode) : ScrapeState :=
  if t.url ∈ s.ledger.processed_tasks then s
  else
    let s1 := logFetch Level.task t.url s
    match w.fetch t.url with
    | none => s1
    | some _ =>
      let datasets := extract_datasets_from_task_page t (some (w.taskPageOf t))
      let s2 := datasets.foldl (processDataset w) s1
      { s2 with ledger :=
        { s2.ledger with processed_tasks := s2.ledger.processed_tasks ++ [t.url] } }

/-- The subtask step: skip if processed; fetch the subtask page; on failure
continue; on success the subtask itself becomes the single task, which is
processed, then the subtask is marked processed. -/
def processSubtask (w : CrawlWorld) (s : ScrapeState) (st : SubtaskNode) : ScrapeState :=
  if st.url ∈ s.ledger.processed_subtasks then s
  else
    let s1 := logFetch Level.subtask st.url s
    match w.fetch st.url with
    | none => s1
    | some _ =>
      let tasks := [taskFromSubtask st]
      let s2 := tasks.foldl (processTask w) s1
      { s2 with ledger :=
        { s2.ledger with processed_subtasks := s2.ledger.processed_subtasks ++ [st.url] } }

/-- The area step: skip if processed; fetch the area page; on failure
continue; on success expand subtasks via the Crawl Frontier and process
them, then mark the area processed. -/
def processArea (w : CrawlWorld) (s : ScrapeState) (a : AreaNode) : ScrapeState :=
  if a.url ∈ s.ledger.processed_areas then s
  else
    let s1 := logFetch Level.area a.url s
    match w.fetch a.url with
    | none => s1
    | some _ =>
      let subtasks := extract_subtasks_from_area_page a (w.areaPageOf a)
      let s2 := subtasks.foldl (processSubtask w) s1
      { s2 with ledger :=
        { s2.ledger with processed_areas := s2.ledger.processed_areas ++ [a.url] } }

/-- `scrape_paperswithcode()`: load the ledger (`p`), take the area list
(from `extract_areas_from_sota_page`), and run the nested loop.  `fs0` is
the page store's state on disk at the start of the run. -/
def scrape_paperswithcode (w : CrawlWorld) (areas : List AreaNode) (p : Ledger)
    (fs0 : List (Str × Str)) : ScrapeState :=
  areas.foldl (processArea w) { ledger := p, files := fs0, fetchLog := [] }

/-! ### Hugging Face Page Store (src/huggingface_dataset_scraper.py) -/

/-- `os.path.join(DATASETS_DIR, f"huggingface_{dataset_name}.html")`. -/
def hf_dataset_file_path (dataset_name : Str) : Str :=
  str "huggingface/huggingface_" ++ dataset_name ++ str ".html"

/-- `download_dataset_page(dataset)` over an explicit filesystem and network
oracle.  The oracle gives the eventual outcome of the retry loop (`some
body` if any attempt returns status 200, `none` if all retries fail); the
third component records whether any network request was made.  If the file
already exists the download is skipped entirely. -/
def download_dataset_page (fetch : Str → Option Str) (files : List (Str × Str))
    (dataset_name dataset_url : Str) : Bool × List (Str × Str) × Bool :=
  let file_path := hf_dataset_file_path dataset_name
  if containsKey files file_path then (true, files, false)
  else
    match fetch dataset_url with
    | some body => (true, files ++ [(file_path, body)], true)
    | none => (false, files, true)

/-- A small concrete crawl world: every fetch succeeds, the area page shows
one subtask link, and the task page shows no dataset links. -/
def c3World : CrawlWorld :=
  { fetch := fun _ => some (str "page"),
    areaPageOf := fun _ =>
      { sotaAllTasksLinks := some
          [{ text := str "Speech Recognition", href := str "/task/speech-recognition" }],
        pageTaskLinks := [], cardTaskLinks := [] },
    taskPageOf := fun _ => { headingLinks := [], directLinks := [], cardLinks := [] } }

/-- A concrete area node for the crawl-loop scenarios. -/
def c3Area : AreaNode :=
  { name := str "Speech", url := str "https://paperswithcode.com/area/speech" }

/-- A ledger in which the area has already been visited (but none of its
descendants have). -/
def c3VisitedLedger : Ledger :=
  { processed_areas := [str "https://paperswithcode.com/area/speech"],
    processed_subtasks := [], processed_tasks := [],
    processed_datasets := [], downloaded_datasets := [] }

/-- The fresh (first-run) ledger. -/
def c3EmptyLedger : Ledger :=
  { processed_areas := [], processed_subtasks := [], processed_tasks := [],
    processed_datasets := [], downloaded_datasets := [] }

/-! ### Field Extractor, Hugging Face pipeline (src/huggingface_html_2_csv.py)

`extract_dataset_info` builds a dict pre-filled with every benchmark field
bound to `""`, then fills fields from the page.  Extracted records are
Python dicts; we reuse the dict model (`pyDictSet` / `dictGet?`). -/

/-- An extracted record: a Python dict from field name to string value. -/
abbrev Record := List (Str × Str)

/-- The `BENCHMARK_FIELDS` constant (the declared CSV schema). -/
def BENCHMARK_FIELDS : List Str :=
  [str "benchmark_name", str "modality", str "task_type", str "domain",
   str "output_type", str "evaluation_metrics", str "paper_link",
   str "dataset_link", str "languages", str "dataset_size",
   str "num_train_examples", str "num_val_examples", str "num_test_examples",
   str "sota_performance", str "sota_model", str "license_details",
   str "last_updated", str "citation_count", str "downloads",
   str "example_code_link", str "similar_benchmarks", str "data_format",
   str "preprocessing_notes", str "ethical_considerations",
   str "model_architectures", str "hardware_requirements", str "training_time"]

/-- `EVALUATION_METRICS_BY_TASK`. -/
def EVALUATION_METRICS_BY_TASK : List (Str × Str) :=
  [(str "Classification", str "Accuracy, F1 Score, Precision, Recall"),
   (str "Question Answering", str "Exact Match, F1 Score"),
   (str "Summarization", str "ROUGE, BLEU, BERTScore"),
   (str "Translation", str "BLEU, METEOR, TER"),
   (str "Sentiment Analysis", str "Accuracy, F1 Score"),
   (str "Detection", str "mAP, IoU"),
   (str "Segmentation", str "IoU, Pixel Accuracy"),
   (str "Captioning", str "BLEU, METEOR, CIDEr, ROUGE"),
   (str "Reasoning", str "Accuracy, F1 Score"),
   (str "General", str "Accuracy, F1 Score")]

/-- `MODEL_ARCHITECTURES_BY_TASK`. -/
def MODEL_ARCHITECTURES_BY_TASK : List (Str × Str) :=
  [(str "Classification", str "BERT, RoBERTa, DeBERTa, XLNet"),
   (str "Question Answering", str "BERT, RoBERTa, T5, BART"),
   (str "Summarization", str "BART, T5, Pegasus, ProphetNet"),
   (str "Translation", str "T5, mBART, M2M100"),
   (str "Sentiment Analysis", str "BERT, RoBERTa, DistilBERT"),
   (str "Detection", str "DETR, Faster R-CNN, YOLO"),
   (str "Segmentation", str "Mask R-CNN, DeepLab, U-Net"),
   (str "Captioning", str "CLIP, VL-BERT, ViLBERT"),
   (str "Reasoning", str "T5, UnifiedQA, BART"),
   (str "General", str "BERT, RoBERTa, T5")]

/-- Fuel-driven worker collapsing `[\n\t\r]+` runs to one space. -/
def collapseNTRAux : Nat → Str → Str
  | _, [] => []
  | 0, s => s
  | fuel + 1, c :: rest =>
    if c = '\n' || c = '\t' || c = '\x0d' then
      ' ' :: collapseNTRAux fuel
        (rest.dropWhile (fun d => d = '\n' || d = '\t' || d = '\x0d'))
    else
      c :: collapseNTRAux fuel rest

/-- `clean_text`: `re.sub(r'[\n\t\r]+', ' ', ...)`, then `re.sub(r'\s+', ' ', ...)`,
then `.strip()`. -/
def clean_text (s : Str) : Str :=
  pyStrip (collapseWs (collapseNTRAux s.length s))

/-- `getField r k`: `r[k]` with `""` for a missing key (records are created
with every field present, so the default is never hit on real records). -/
def getField (r : Record) (k : Str) : Str := (dictGet? r k).getD []

/-- Case-insensitive literal prefix test (`lit` given in lowercase), the
building block for `re.IGNORECASE` literal matching.  Captured text keeps
its original case, as in Python. -/
def ciPrefix : Str → Str → Bool
  | [], _ => true
  | _ :: _, [] => false
  | l :: ls, c :: cs => l = c.toLower && ciPrefix ls cs

/-- `term in text` for a list of (lowercase) terms against lowered text. -/
def containsAny (terms : List Str) (loweredText : Str) : Bool :=
  terms.any (fun t => containsSub t loweredText)

/-- Greedy `\d+` capture: `(digits, rest)`, `none` if no leading digit. -/
def parseDigits (s : Str) : Option (Str × Str) :=
  let d := s.takeWhile (fun c => c.isDigit)
  if d = [] then none else some (d, s.drop d.length)

/-- Greedy `(?:,\d+)*` continuation for a number-with-commas capture. -/
def parseCommaGroups : Nat → Str → Str × Str
  | 0, s => ([], s)
  | fuel + 1, s =>
    match s with
    | ',' :: rest =>
      match parseDigits rest with
      | none => ([], s)
      | some (d, rest2) =>
        let (more, rest3) := parseCommaGroups fuel rest2
        (',' :: (d ++ more), rest3)
    | _ => ([], s)

/-- Greedy `\d+(?:,\d+)*` capture.  (For these patterns greedy matching
agrees with the regex engine: any backtracked shorter capture leaves a
digit or comma where the following `\s*<unit word>` must start, so no
shorter capture can ever succeed where the greedy one fails.) -/
def parseNumberCommas (s : Str) : Option (Str × Str) :=
  match parseDigits s with
  | none => none
  | some (d, rest) =>
    let (more, rest2) := parseCommaGroups rest.length rest
    some (d ++ more, rest2)

/-- The unit alternation `(?:examples|samples|instances|rows|records)`
(case-insensitive). -/
def parseUnitWord (s : Str) : Bool :=
  [str "examples", str "samples", str "instances", str "rows",
   str "records"].any (fun u => ciPrefix u s)

/-- The common tail `\s*(?:set|split)?:?\s*(\d+(?:,\d+)*)\s*(?:examples|...)`
of the split-count patterns, returning the number capture. -/
def matchSplitTail (s : Str) : Option Str :=
  let s1 := s.dropWhile (fun c => pyIsSpace c)
  let s2 := if ciPrefix (str "set") s1 then s1.drop 3
            else if ciPrefix (str "split") s1 then s1.drop 5
            else s1
  let s3 := match s2 with
            | ':' :: r => r
            | _ => s2
  let s4 := s3.dropWhile (fun c => pyIsSpace c)
  match parseNumberCommas s4 with
  | none => none
  | some (num, rest) =>
    if parseUnitWord (rest.dropWhile (fun c => pyIsSpace c)) then some num else none

/-- `train(?:ing)?` at the head of `s` (case-insensitive). -/
def trainKw (s : Str) : Option Str :=
  if ciPrefix (str "train") s then
    let r := s.drop 5
    some (if ciPrefix (str "ing") r then r.drop 3 else r)
  else none

/-- `test(?:ing)?` at the head of `s`. -/
def testKw (s : Str) : Option Str :=
  if ciPrefix (str "test") s then
    let r := s.drop 4
    some (if ciPrefix (str "ing") r then r.drop 3 else r)
  else none

/-- `(?:val(?:idation)?|dev(?:elopment)?)` at the head of `s`. -/
def valKw (s : Str) : Option Str :=
  if ciPrefix (str "val") s then
    let r := s.drop 3
    some (if ciPrefix (str "idation") r then r.drop 7 else r)
  else if ciPrefix (str "dev") s then
    let r := s.drop 3
    some (if ciPrefix (str "elopment") r then r.drop 8 else r)
  else none

/-- `(?:total|contains|consists of)?` at the head of `s` — the optional
lead-in of the total-examples fallback pattern (which may also match with
no lead-in at all, its head being `\s*` before the number). -/
def totalKw (s : Str) : Option Str :=
  if ciPrefix (str "total") s then some (s.drop 5)
  else if ciPrefix (str "contains") s then some (s.drop 8)
  else if ciPrefix (str "consists of") s then some (s.drop 11)
  else some s

/-- `re.search`: the capture at the earliest position where
`<kw>` followed by the split-count tail matches. -/
def searchSplitCount (kw : Str → Option Str) (text : Str) : Option Str :=
  (List.range (text.length + 1)).findSome? (fun i =>
    match kw (text.drop i) with
    | none => none
    | some rest => matchSplitTail rest)

/-- The first keyword starting with `arxiv:`, turned into an arXiv URL. -/
def firstArxivKeyword (keywords : List Str) : Option Str :=
  match keywords.find? (fun k => (str "arxiv:").isPrefixOf k) with
  | some k => some (str "https://arxiv.org/abs/" ++ k.drop 6)
  | none => none

/-- The modality keyword ladder run over (already lowered) summary text:
image/visual/picture (further split by text/language into `Image-Text`),
then video/motion, audio/sound/speech, text/language/nlp, defaulting to
`Text`. -/
def modalityFromSummary (lowered : Str) : Str :=
  if containsAny [str "image", str "visual", str "picture"] lowered then
    (if containsAny [str "text", str "language"] lowered then str "Image-Text"
     else str "Image")
  else if containsAny [str "video", str "motion"] lowered then str "Video"
  else if containsAny [str "audio", str "sound", str "speech"] lowered then str "Audio"
  else if containsAny [str "text", str "language", str "nlp"] lowered then str "Text"
  else str "Text"

/-- The domain keyword ladder over lowered summary text. -/
def domainFromSummary (lowered : Str) : Str :=
  if containsAny [str "scientific", str "science", str "research"] lowered then
    str "Scientific"
  else if containsAny [str "ui", str "interface", str "gui"] lowered then str "UI"
  else if containsAny [str "document", str "pdf", str "ocr"] lowered then
    str "Document"
  else str "General"

/-- The task-type keyword ladder over lowered summary text. -/
def taskTypeFromSummary (lowered : Str) : Str :=
  if containsSub (str "question answering") lowered then str "Question Answering"
  else if containsSub (str "classification") lowered then str "Classification"
  else if containsSub (str "detection") lowered then str "Detection"
  else if containsSub (str "segmentation") lowered then str "Segmentation"
  else if containsSub (str "captioning") lowered then str "Captioning"
  else if containsSub (str "translation") lowered then str "Translation"
  else if containsSub (str "summarization") lowered then str "Summarization"
  else if containsSub (str "reasoning") lowered then str "Reasoning"
  else if containsSub (str "sentiment") lowered then str "Sentiment Analysis"
  else str "General"

/-- Output type derived from the resolved task type. -/
def outputTypeFromTask (task_type : Str) : Str :=
  if task_type = str "Classification" ∨ task_type = str "Sentiment Analysis" then
    str "Label"
  else if task_type = str "Detection" ∨ task_type = str "Segmentation" then
    str "Bounding Box/Mask"
  else str "Text"

/-- `languages?:?\s*([^\.]+)` at the head of `s` (case-insensitive). -/
def languagesPat1At (s : Str) : Option Str :=
  if ciPrefix (str "language") s then
    let r0 := s.drop 8
    let r1 := if ciPrefix (str "s") r0 then r0.drop 1 else r0
    let r2 := match r1 with
              | ':' :: r => r
              | _ => r1
    let r3 := r2.dropWhile (fun c => pyIsSpace c)
    let cap := r3.takeWhile (fun c => c ≠ '.')
    if cap = [] then none else some cap
  else none

/-- Greedy `\w+` capture. -/
def parseWordChars (s : Str) : Option (Str × Str) :=
  let w := s.takeWhile (fun c => pyIsWordChar c)
  if w = [] then none else some (w, s.drop w.length)

/-- Candidate captures for `\w+(?:,\s+\w+)*` in the regex engine's
backtracking order (most comma groups first). -/
def wordGroupCandidates : Nat → Str × Str → List (Str × Str)
  | 0, st => [st]
  | fuel + 1, (cap, rest) =>
    match rest with
    | ',' :: r1 =>
      let sp := r1.takeWhile (fun c => pyIsSpace c)
      if sp = [] then [(cap, rest)]
      else
        match parseWordChars (r1.drop sp.length) with
        | none => [(cap, rest)]
        | some (w, r2) =>
          wordGroupCandidates fuel (cap ++ ',' :: (sp ++ w), r2) ++ [(cap, rest)]
    | _ => [(cap, rest)]

/-- `in\s+(\w+(?:,\s+\w+)*)\s+languages?` at the head of `s`. -/
def languagesPat2At (s : Str) : Option Str :=
  if ciPrefix (str "in") s then
    let r0 := s.drop 2
    let sp := r0.takeWhile (fun c => pyIsSpace c)
    if sp = [] then none
    else
      match parseWordChars (r0.drop sp.length) with
      | none => none
      | some (w, r1) =>
        (wordGroupCandidates r1.length (w, r1)).findSome? (fun st =>
          let sp2 := st.2.takeWhile (fun c => pyIsSpace c)
          if sp2 = [] then none
          else if ciPrefix (str "language") (st.2.drop sp2.length) then some st.1
          else none)
  else none

/-- `re.search` over all positions for a head matcher. -/
def searchAt (pat : Str → Option Str) (text : Str) : Option Str :=
  (List.range (text.length + 1)).findSome? (fun i => pat (text.drop i))

/-- `(\d+(?:\.\d+)?)` (greedy, with optional decimal part). -/
def parseDecimal (s : Str) : Option (Str × Str) :=
  match parseDigits s with
  | none => none
  | some (d, r1) =>
    match r1 with
    | '.' :: rr =>
      match parseDigits rr with
      | some (d2, r3) => some (d ++ '.' :: d2, r3)
      | none => some (d, r1)
    | _ => some (d, r1)

/-- One match of `(\d+(?:\.\d+)?)\s*(GB|MB|KB|TB)` at the head of `s`:
`((number, unit-as-written), rest)`. -/
def sizeMatchAt (s : Str) : Option ((Str × Str) × Str) :=
  match parseDecimal s with
  | none => none
  | some (num, r2) =>
    let r4 := r2.dropWhile (fun c => pyIsSpace c)
    if ciPrefix (str "gb") r4 || ciPrefix (str "mb") r4 ||
        ciPrefix (str "kb") r4 || ciPrefix (str "tb") r4 then
      some ((num, r4.take 2), r4.drop 2)
    else none

/-- `re.findall` for the size pattern: left-to-right, non-overlapping. -/
def sizeFindAll : Nat → Str → List (Str × Str)
  | 0, _ => []
  | _, [] => []
  | fuel + 1, s =>
    match sizeMatchAt s with
    | some (m, rest) => m :: sizeFindAll fuel rest
    | none => sizeFindAll fuel (s.drop 1)

/-- `', '.join([f"{size} {unit}" ...])`. -/
def joinSizes (ms : List (Str × Str)) : Str :=
  List.intercalate (str ", ") (ms.map (fun m => m.1 ++ ' ' :: m.2))

/-- `(?:total|contains|consists of)?\s*(\d+(?:,\d+)*)\s*(?:examples|...)`
at the head of `s`. -/
def totalMatchAt (s : Str) : Option Str :=
  match totalKw s with
  | none => none
  | some rest =>
    let r := rest.dropWhile (fun c => pyIsSpace c)
    match parseNumberCommas r with
    | none => none
    | some (num, r2) =>
      if parseUnitWord (r2.dropWhile (fun c => pyIsSpace c)) then some num else none

/-- `(?:state-of-the-art|sota|best)` at the head of `s`. -/
def sotaKw (s : Str) : Option Str :=
  if ciPrefix (str "state-of-the-art") s then some (s.drop 16)
  else if ciPrefix (str "sota") s then some (s.drop 4)
  else if ciPrefix (str "best") s then some (s.drop 4)
  else none

/-- `(\d+(?:\.\d+)?%?)` at the head of `s`. -/
def numPercentAt (s : Str) : Option Str :=
  match parseDecimal s with
  | none => none
  | some (num, r2) =>
    match r2 with
    | '%' :: _ => some (num ++ [ '%' ])
    | _ => some num

/-- `.+?<target>`: consume at least one non-newline character lazily, then
try the target capture. -/
def lazyDotFind (target : Str → Option Str) : Nat → Str → Option Str
  | 0, _ => none
  | fuel + 1, s =>
    match s with
    | [] => none
    | c :: rest =>
      if c = '\n' then none
      else
        match target rest with
        | some cap => some cap
        | none => lazyDotFind target fuel rest

/-- `re.search` for a keyword alternation followed by `.+?<target>`. -/
def searchKwLazy (kw : Str → Option Str) (target : Str → Option Str)
    (text : Str) : Option Str :=
  (List.range (text.length + 1)).findSome? (fun i =>
    match kw (text.drop i) with
    | none => none
    | some rest => lazyDotFind target rest.length rest)

/-- `([^\.]+)` (greedy, non-empty). -/
def nonDotCapture (s : Str) : Option Str :=
  let cap := s.takeWhile (fun c => c ≠ '.')
  if cap = [] then none else some cap

/-- `(?:ethical|bias|fairness|demographic)`. -/
def ethicsKw (s : Str) : Option Str :=
  if ciPrefix (str "ethical") s then some (s.drop 7)
  else if ciPrefix (str "bias") s then some (s.drop 4)
  else if ciPrefix (str "fairness") s then some (s.drop 8)
  else if ciPrefix (str "demographic") s then some (s.drop 11)
  else none

/-- `(?:preprocess|tokeniz|clean)`. -/
def preprocKw (s : Str) : Option Str :=
  if ciPrefix (str "preprocess") s then some (s.drop 10)
  else if ciPrefix (str "tokeniz") s then some (s.drop 7)
  else if ciPrefix (str "clean") s then some (s.drop 5)
  else none

/-- `(?:hardware|gpu|cpu|memory|ram)`. -/
def hardwareKw (s : Str) : Option Str :=
  if ciPrefix (str "hardware") s then some (s.drop 8)
  else if ciPrefix (str "gpu") s then some (s.drop 3)
  else if ciPrefix (str "cpu") s then some (s.drop 3)
  else if ciPrefix (str "memory") s then some (s.drop 6)
  else if ciPrefix (str "ram") s then some (s.drop 3)
  else none

/-- `(?:train(?:ing)? time|hours|minutes)`. -/
def timeKw (s : Str) : Option Str :=
  if ciPrefix (str "train") s then
    let r := s.drop 5
    let r2 := if ciPrefix (str "ing") r then r.drop 3 else r
    if ciPrefix (str " time") r2 then some (r2.drop 5) else none
  else if ciPrefix (str "hours") s then some (s.drop 5)
  else if ciPrefix (str "minutes") s then some (s.drop 7)
  else none

/-- `task_tags` ladder of the dataset card: set `task_type` from the first
matching tag keyword. -/
def taskTypeFromTags (r : Record) (tags : List Str) : Record :=
  let task_texts := tags.map (fun t => pyLower t)
  if task_texts.any (fun t => containsSub (str "classification") t) then
    pyDictSet r (str "task_type") (str "Classification")
  else if task_texts.any (fun t => containsSub (str "question") t) then
    pyDictSet r (str "task_type") (str "Question Answering")
  else if task_texts.any (fun t => containsSub (str "summarization") t) then
    pyDictSet r (str "task_type") (str "Summarization")
  else if task_texts.any (fun t => containsSub (str "translation") t) then
    pyDictSet r (str "task_type") (str "Translation")
  else if task_texts.any (fun t => containsSub (str "sentiment") t) then
    pyDictSet r (str "task_type") (str "Sentiment Analysis")
  else r

/-- The statements run on the matched Dataset Summary text, in source
order: modality, domain, task type, output type, languages, dataset size,
split counts with the total-examples fallback, SOTA performance, ethics,
preprocessing, hardware, training time. -/
def summaryBlock (r0 : Record) (summary : Str) : Record :=
  let lowered := pyLower summary
  let r1 := pyDictSet r0 (str "modality") (modalityFromSummary lowered)
  let r2 := pyDictSet r1 (str "domain") (domainFromSummary lowered)
  let r3 := pyDictSet r2 (str "task_type") (taskTypeFromSummary lowered)
  let r4 := pyDictSet r3 (str "output_type")
    (outputTypeFromTask (getField r3 (str "task_type")))
  let r5 := match searchAt languagesPat1At summary with
    | some cap => pyDictSet r4 (str "languages") (clean_text (pyStrip cap))
    | none =>
      match searchAt languagesPat2At summary with
      | some cap => pyDictSet r4 (str "languages") (clean_text cap)
      | none =>
        if containsSub (str "english") lowered then
          pyDictSet r4 (str "languages") (str "English")
        else r4
  let sizes := sizeFindAll summary.length summary
  let r6 := if sizes ≠ [] then
      pyDictSet r5 (str "dataset_size") (clean_text (joinSizes sizes))
    else r5
  let r7 := match searchSplitCount trainKw summary with
    | some num => pyDictSet r6 (str "num_train_examples") (pyReplace (str ",") [] num)
    | none => r6
  let r8 := match searchSplitCount valKw summary with
    | some num => pyDictSet r7 (str "num_val_examples") (pyReplace (str ",") [] num)
    | none => r7
  let r9 := match searchSplitCount testKw summary with
    | some num => pyDictSet r8 (str "num_test_examples") (pyReplace (str ",") [] num)
    | none => r8
  let r10 := if getField r9 (str "num_train_examples") = [] ∧
      getField r9 (str "num_val_examples") = [] ∧
      getField r9 (str "num_test_examples") = [] then
      match searchAt totalMatchAt summary with
      | some num => pyDictSet r9 (str "num_train_examples") (pyReplace (str ",") [] num)
      | none => r9
    else r9
  let r11 := match searchKwLazy sotaKw numPercentAt summary with
    | some cap => pyDictSet r10 (str "sota_performance") (clean_text cap)
    | none => r10
  let r12 := match searchKwLazy ethicsKw nonDotCapture summary with
    | some cap => pyDictSet r11 (str "ethical_considerations") (clean_text cap)
    | none => r11
  let r13 := match searchKwLazy preprocKw nonDotCapture summary with
    | some cap => pyDictSet r12 (str "preprocessing_notes") (clean_text cap)
    | none => r12
  let r14 := match searchKwLazy hardwareKw nonDotCapture summary with
    | some cap => pyDictSet r13 (str "hardware_requirements") (clean_text cap)
    | none => r13
  match searchKwLazy timeKw nonDotCapture summary with
  | some cap => pyDictSet r14 (str "training_time") (clean_text cap)
  | none => r14

/-- The JSON-LD data the extractor reads when the `application/ld+json`
script is present and parses: the result of the Dataset Summary regex on the
`description` value (or `none`), plus the `keywords`, `license`, `sameAs`
and `dateModified` values. -/
structure HfJsonLd where
  summaryText : Option Str
  keywords : List Str
  license : Option Str
  sameAs : Option Str
  dateModified : Option Str

/-- The slice of a stored Hugging Face dataset page that
`extract_dataset_info` reads.  `metaDescription` holds the page's
`<meta name="description">` content; the extractor never consults it.
The `downloadsCount` / `citationCount` / `dataFormatCapture` /
`sotaModelText` fields carry the selector-plus-regex results for those
blocks (`none` when the selector or regex fails); `similarLinkTexts`,
`codeLinkHrefs` and `cardTaskTags` carry the corresponding selector
results. -/
structure HfPage where
  metaDescription : Option Str
  jsonLd : Option HfJsonLd
  htmlSummaryText : Option Str
  downloadsCount : Option Str
  citationCount : Option Str
  dataFormatCapture : Option Str
  similarLinkTexts : List Str
  codeLinkHrefs : List Str
  sotaModelText : Option Str
  cardTaskTags : Option (List Str)

/-- `extract_dataset_info(dataset_name, html_content)`: initialise every
declared field to `""`, set the name (from the filename-derived
`dataset_name` argument) and the dataset link, return early on empty HTML,
then run Method 1 (JSON-LD), Method 2 (HTML summary, modality only, only
when still unset), the selector extras, the card task tags, and the
metric/architecture table fills. -/
def hfInitRecord (dataset_name : Str) : Record :=
  pyDictSet (pyDictSet (BENCHMARK_FIELDS.map (fun f => (f, ([] : Str))))
      (str "benchmark_name") dataset_name)
      (str "dataset_link") (str "https://huggingface.co/datasets/" ++ dataset_name)

def extract_dataset_info (dataset_name : Str) (page : Option HfPage) : Record :=
  let rInit := hfInitRecord dataset_name
  match page with
  | none => rInit
  | some pg =>
    let r1 := match pg.jsonLd with
      | none => rInit
      | some jd =>
        let rA := match jd.summaryText with
          | some summary => summaryBlock rInit summary
          | none => rInit
        let rB := match firstArxivKeyword jd.keywords with
          | some link => pyDictSet rA (str "paper_link") link
          | none => rA
        let rC := match jd.license with
          | some l => pyDictSet rB (str "license_details") l
          | none => rB
        let rD := match jd.sameAs with
          | some u => pyDictSet rC (str "paper_link") u
          | none => rC
        match jd.dateModified with
        | some t => pyDictSet rD (str "last_updated") t
        | none => rD
    let r2 := if getField r1 (str "modality") = [] then
        match pg.htmlSummaryText with
        | some stext =>
          pyDictSet r1 (str "modality") (modalityFromSummary (pyLower stext))
        | none => r1
      else r1
    let r3 := match pg.downloadsCount with
      | some n => pyDictSet r2 (str "downloads") n
      | none => r2
    let r4 := match pg.citationCount with
      | some n => pyDictSet r3 (str "citation_count") n
      | none => r3
    let r5 := match pg.dataFormatCapture with
      | some t => pyDictSet r4 (str "data_format") (clean_text t)
      | none => r4
    let r6 := if pg.similarLinkTexts ≠ [] then
        pyDictSet r5 (str "similar_benchmarks")
          (List.intercalate (str ", ") (pg.similarLinkTexts.take 5))
      else r5
    let r7 := match pg.codeLinkHrefs.find? (fun href =>
        containsSub (str "example") (pyLower href) ||
        containsSub (str "code") (pyLower href) ||
        containsSub (str "implementation") (pyLower href)) with
      | some href => pyDictSet r6 (str "example_code_link") href
      | none => r6
    let r8 := match pg.sotaModelText with
      | some t => pyDictSet r7 (str "sota_model") (clean_text t)
      | none => r7
    let r9 := match pg.cardTaskTags with
      | none => r8
      | some tags => if tags ≠ [] then taskTypeFromTags r8 tags else r8
    let r10 := if getField r9 (str "task_type") ≠ [] ∧
        getField r9 (str "evaluation_metrics") = [] then
        match dictGet? EVALUATION_METRICS_BY_TASK (getField r9 (str "task_type")) with
        | some m => pyDictSet r9 (str "evaluation_metrics") m
        | none => r9
      else r9
    if getField r10 (str "task_type") ≠ [] ∧
        getField r10 (str "model_architectures") = [] then
      match dictGet? MODEL_ARCHITECTURES_BY_TASK (getField r10 (str "task_type")) with
      | some m => pyDictSet r10 (str "model_architectures") m
      | none => r10
    else r10

/-! ### Field Extractor, Papers With Code pipeline
(src/paperswithcode_html_2_csv.py) -/

/-- Does this suffix of the title match `\s+\|\s+Papers With Code$`? -/
def pwcTitleSep (s : Str) : Bool :=
  let ws1 := s.takeWhile (fun c => pyIsSpace c)
  let r1 := s.dropWhile (fun c => pyIsSpace c)
  match r1 with
  | '|' :: r2 =>
    let ws2 := r2.takeWhile (fun c => pyIsSpace c)
    let r3 := r2.dropWhile (fun c => pyIsSpace c)
    ws1 ≠ [] && ws2 ≠ [] && decide (r3 = str "Papers With Code")
  | _ => false

/-- `re.search(r'^(.*?)(?:\s+\|\s+Papers With Code)?$', title).group(1)`,
stripped: the lazy group stops at the earliest index from which the optional
` | Papers With Code` suffix reaches the end of the string; if no such index
exists the group is the whole title. -/
def extract_dataset_name_title (title : Str) : Str :=
  match (List.range (title.length + 1)).find? (fun i => pwcTitleSep (title.drop i)) with
  | some i => pyStrip (title.take i)
  | none => pyStrip title

/-- `extract_dataset_name(soup)`: the title-based name if the page has a
non-empty title, else the `h1.paper-title` heading text, else the literal
`"Unknown Dataset"`. -/
def extract_dataset_name (title : Option Str) (heading : Option Str) : Str :=
  let t := title.getD []
  if t ≠ [] then extract_dataset_name_title t
  else
    match heading with
    | some h => h
    | none => str "Unknown Dataset"

/-- The Hugging Face page of claim C2's scenario: the stored page carries
the title and meta-description in its markup, but exposes no JSON-LD script
and no Dataset Summary section, and has no explicit modality markup. -/
def c2ScenarioPage : HfPage :=
  { metaDescription := some (str "train: 10,000 examples, test: 5,000 examples"),
    jsonLd := none,
    htmlSummaryText := none, downloadsCount := none, citationCount := none,
    dataFormatCapture := none, similarLinkTexts := [], codeLinkHrefs := [],
    sotaModelText := none, cardTaskTags := none }

/-- A variant of the scenario page whose JSON-LD Dataset Summary carries the
split-count text (the only place the extractor actually reads it from). -/
def c2SummaryPage : HfPage :=
  { metaDescription := some (str "train: 10,000 examples, test: 5,000 examples"),
    jsonLd := some
      { summaryText := some (str "train: 10,000 examples, test: 5,000 examples"),
        keywords := [], license := none, sameAs := none, dateModified := none },
    htmlSummaryText := none, downloadsCount := none, citationCount := none,
    dataFormatCapture := none, similarLinkTexts := [], codeLinkHrefs := [],
    sotaModelText := none, cardTaskTags := none }

/-! ### Tabular Writer (src/huggingface_html_2_csv.py save_to_csv and
src/paperswithcode_html_2_csv.py inline CSV writing) -/

/-- One output row of `save_to_csv`: the writer builds
`{field: item.get(field, '') for field in BENCHMARK_FIELDS}` and hands it to
a `csv.DictWriter` whose `fieldnames` are `BENCHMARK_FIELDS`, so the row is
the field values in declared order, `""` for a missing field. -/
def save_to_csv_row (item : Record) : List Str :=
  BENCHMARK_FIELDS.map (fun field => (dictGet? item field).getD [])

/-- The header row written by `setup_csv_file` in the PwC converter. -/
def PWC_CSV_HEADERS : List Str :=
  [str "dataset_id", str "dataset_name", str "description", str "homepage_url",
   str "license", str "modalities", str "languages", str "year_published",
   str "paper_title", str "paper_url", str "dataset_size", str "dataset_splits",
   str "num_classes", str "associated_tasks", str "benchmark_urls",
   str "pwc_url", str "area", str "subtask", str "task"]

/-- One output row of the PwC converter's per-record write:
`csv.DictWriter(f, fieldnames=list(dataset_info.keys())).writerow(dataset_info)`
emits the record's own values in the record's own key order. -/
def pwc_write_row (item : Record) : List Str := item.map Prod.snd

/-- A record as `process_html_file` would build it but missing the `area`,
`subtask` and `task` fields appended later by `extract_datasets`. -/
def c5MissingFieldsRecord : Record :=
  [(str "dataset_id", str "cifar-10"), (str "dataset_name", str "CIFAR-10"),
   (str "description", str "d"), (str "homepage_url", str "h"),
   (str "license", str "MIT"), (str "modalities", str "Image"),
   (str "languages", str "English"), (str "year_published", str "2009"),
   (str "paper_title", str "p"), (str "paper_url", str "pu"),
   (str "dataset_size", str "60000 images"), (str "dataset_splits", str "s"),
   (str "num_classes", str "10"), (str "associated_tasks", str "t"),
   (str "benchmark_urls", str "b"), (str "pwc_url", str "u")]

/-! ### Field Extractor error handling (src/huggingface_html_2_csv.py
extract_dataset_info try/except, src/paperswithcode_html_2_csv.py
process_html_file try/except)

The statements inside each function's `try` block are abstracted as a list
of steps, each either updating the record dict or raising. -/

/-- One statement of an extraction body: update the record or raise. -/
abbrev ExtractStep := Record → Except Unit Record

/-- The Hugging Face `try` body: run the statements in order; when one
raises, the `except` branch logs and the function returns the record as
accumulated so far (`return dataset_data` after the handler). -/
def runStepsHf : List ExtractStep → Record → Record
  | [], r => r
  | step :: rest, r =>
    match step r with
    | Except.ok r2 => runStepsHf rest r2
    | Except.error _ => r

/-- `extract_dataset_info` under the failure model: the record starts from
the pre-filled dict (all declared fields bound to `""`, name and link set)
and the body's statements run under the `try`. -/
def extract_dataset_info_guarded (dataset_name : Str) (steps : List ExtractStep) :
    Record :=
  runStepsHf steps (hfInitRecord dataset_name)

/-- The PwC `try` body of `process_html_file`: when a statement raises, the
handler logs and the function returns `None` — the page yields no record. -/
def runStepsPwc : List ExtractStep → Record → Option Record
  | [], r => some r
  | step :: rest, r =>
    match step r with
    | Except.ok r2 => runStepsPwc rest r2
    | Except.error _ => none

/-- `process_html_file` under the failure model. -/
def process_html_file_guarded (steps : List ExtractStep) (r0 : Record) :
    Option Record :=
  runStepsPwc steps r0

/-- The Hugging Face batch loop (`extract_from_html_files`): every page is
processed independently; `extract_dataset_info` itself never raises (its
body is wrapped in the `try`), so each page contributes exactly one
record. -/
def hf_batch (jobs : List (Str × List ExtractStep)) : List Record :=
  jobs.map (fun job => extract_dataset_info_guarded job.1 job.2)

/-- The PwC batch loop (`extract_datasets`): pages whose extraction raised
(yielding `None`) are skipped, the loop continuing with the next page. -/
def pwc_batch (jobs : List (List ExtractStep × Record)) : List Record :=
  jobs.filterMap (fun job => process_html_file_guarded job.1 job.2)

/-! ### Canonical-URL cascade (src/paperswithcode_html_2_csv.py,
extract_pwc_url) -/

/-- A `<meta>` tag as read by the cascade: its `property` and `content`
attributes. -/
structure PwcMeta where
  property : Option Str
  content : Option Str
deriving DecidableEq

/-- The slice of a stored PwC dataset page that `extract_pwc_url` reads:
all meta tags, the canonical link href (`none` when the link tag or its
href is absent), the breadcrumb link hrefs, the hrefs returned by the
`a[href*="/dataset/"]` selector, and the title. -/
structure PwcPage where
  metas : List PwcMeta
  canonicalHref : Option Str
  breadcrumbHrefs : List Str
  anchorHrefs : List Str
  title : Option Str

/-- Does this suffix of the title match `\s+Dataset\s+\|\s+Papers With Code`
(the separator of the title-slug regex)? -/
def pwcTitleDatasetSep (s : Str) : Bool :=
  let ws1 := s.takeWhile (fun c => pyIsSpace c)
  let r1 := s.dropWhile (fun c => pyIsSpace c)
  if ws1 ≠ [] ∧ (str "Dataset").isPrefixOf r1 then
    let r2 := (r1.drop 7)
    let ws2 := r2.takeWhile (fun c => pyIsSpace c)
    let r3 := r2.dropWhile (fun c => pyIsSpace c)
    match r3 with
    | '|' :: r4 =>
      let ws3 := r4.takeWhile (fun c => pyIsSpace c)
      let r5 := r4.dropWhile (fun c => pyIsSpace c)
      ws2 ≠ [] && ws3 ≠ [] && (str "Papers With Code").isPrefixOf r5
    | _ => false
  else false

/-- Fuel-driven worker collapsing `-+` runs to a single `-`. -/
def collapseDashesAux : Nat → Str → Str
  | _, [] => []
  | 0, s => s
  | fuel + 1, c :: rest =>
    if c = '-' then
      '-' :: collapseDashesAux fuel (rest.dropWhile (fun d => d = '-'))
    else
      c :: collapseDashesAux fuel rest

/-- `re.sub(r'[^\w]', '-', name.lower())` then `re.sub(r'-+', '-', ...)`:
the dataset slug built from a name. -/
def datasetSlug (name : Str) : Str :=
  let dashed := (pyLower name).map (fun c => if pyIsWordChar c then c else '-')
  collapseDashesAux dashed.length dashed

/-- `os.path.basename`. -/
def pathBasename (file_path : Str) : Str :=
  (file_path.reverse.takeWhile (fun c => c ≠ '/')).reverse

/-- The first block of `extract_pwc_url`: loop over all meta tags and
return the stripped content of the first one whose `property` is `og:url`
and whose `content` is truthy. -/
def ogUrlStrategy (page : PwcPage) : Option Str :=
  page.metas.findSome? (fun m =>
    match m.property, m.content with
    | some p, some c => if p = str "og:url" ∧ c ≠ [] then some (pyStrip c) else none
    | _, _ => none)

/-- The second block: `soup.find('link', rel='canonical')`, guarded by a
truthy `href`. -/
def canonicalStrategy (page : PwcPage) : Option Str :=
  match page.canonicalHref with
  | some h => if h ≠ [] then some (pyStrip h) else none
  | none => none

/-- The third block: the first `ol.breadcrumb li a` link whose href contains
`/dataset/`, prefixed with the site origin. -/
def breadcrumbStrategy (page : PwcPage) : Option Str :=
  page.breadcrumbHrefs.findSome? (fun href =>
    if containsSub (str "/dataset/") href then
      some (str "https://paperswithcode.com" ++ href)
    else none)

/-- The fourth block: the first `a[href*="/dataset/"]` anchor whose href is
site-relative (prefixed) or absolute (kept); other hrefs are skipped. -/
def datasetAnchorStrategy (page : PwcPage) : Option Str :=
  page.anchorHrefs.findSome? (fun href =>
    if (str "/").isPrefixOf href then
      some (str "https://paperswithcode.com" ++ href)
    else if (str "http").isPrefixOf href then some href
    else none)

/-- The fifth block: `re.search(r'^(.*?)\s+Dataset\s+\|\s+Papers With Code',
title)`; on a match, the slug built from the stripped group. -/
def titleSlugStrategy (page : PwcPage) : Option Str :=
  match page.title with
  | some t =>
    if t ≠ [] then
      match (List.range (t.length + 1)).find?
          (fun i => pwcTitleDatasetSep (t.drop i)) with
      | some i =>
        some (str "https://paperswithcode.com/dataset/" ++
          datasetSlug (pyStrip (t.take i)))
      | none => none
    else none
  | none => none

/-- The sixth block: the basename of the file path, with the `.html`
extension removed, as a dataset slug. -/
def fileSlugStrategy (file_path : Str) : Option Str :=
  let file_name := pathBasename file_path
  if (str ".html").isSuffixOf file_name then
    some (str "https://paperswithcode.com/dataset/" ++
      file_name.take (file_name.length - 5))
  else none

/-- `extract_pwc_url(soup, file_path)`: the six blocks above in source
order, each one returning as soon as it finds a value, control otherwise
falling through to the next, ending with `return ""`. -/
def extract_pwc_url (page : PwcPage) (file_path : Str) : Str :=
  match ogUrlStrategy page with
  | some u => u
  | none =>
    match canonicalStrategy page with
    | some u => u
    | none =>
      match breadcrumbStrategy page with
      | some u => u
      | none =>
        match datasetAnchorStrategy page with
        | some u => u
        | none =>
          match titleSlugStrategy page with
          | some u => u
          | none =>
            match fileSlugStrategy file_path with
            | some u => u
            | none => []

/-- The spec's cascade, as an ordered strategy list. -/
def pwcUrlStrategies (page : PwcPage) (file_path : Str) : List (Option Str) :=
  [ogUrlStrategy page, canonicalStrategy page, breadcrumbStrategy page,
   datasetAnchorStrategy page, titleSlugStrategy page, fileSlugStrategy file_path]

/-- The first strategy that produced a value. -/
def firstSome {α : Type} (l : List (Option α)) : Option α :=
  l.findSome? id

/-! ### Progress-ledger loading (src/paperswithcode_scraper.py,
load_progress) -/

/-- JSON values as `json.load` produces them. -/
inductive JsonVal where
  | jnull
  | jbool (b : Bool)
  | jnum (n : Int)
  | jstr (s : Str)
  | jarr (items : List JsonVal)
  | jobj (fields : List (Str × JsonVal))

/-- Python `key == value` between a string key and a JSON value (list
membership compares with `==`, false for non-strings, no error). -/
def jsonEqStr (v : JsonVal) (k : Str) : Bool :=
  match v with
  | JsonVal.jstr s => s = k
  | _ => false

/-- Is the value a JSON list? -/
def isJList (v : JsonVal) : Bool :=
  match v with
  | JsonVal.jarr _ => true
  | _ => false

/-- The observable states of the progress file. -/
inductive LedgerFile where
  | absent
  | unreadable
  | malformed
  | parsed (v : JsonVal)

/-- The five keys `load_progress` guarantees. -/
def PROGRESS_KEYS : List Str :=
  [str "processed_areas", str "processed_subtasks", str "processed_tasks",
   str "processed_datasets", str "downloaded_datasets"]

/-- The freshly initialised progress dict. -/
def defaultProgress : JsonVal :=
  JsonVal.jobj (PROGRESS_KEYS.map (fun k => (k, JsonVal.jarr [])))

/-- `'k' in progress` for a parsed JSON object. -/
def jobjContains (fields : List (Str × JsonVal)) (k : Str) : Bool :=
  fields.any (fun p => p.1 = k)

/-- The `# Ensure all required keys exist` block: for each key in order,
`if key not in progress: progress[key] = []` (a fresh key lands at the end
of the dict). -/
def ensureKeys (fields : List (Str × JsonVal)) : List (Str × JsonVal) :=
  PROGRESS_KEYS.foldl
    (fun fs k => if jobjContains fs k then fs else fs ++ [(k, JsonVal.jarr [])])
    fields

/-- `load_progress()`.  An absent file, an unreadable file or invalid JSON
all end in the initialised default (the exception, where one is raised, is
caught).  A parsed JSON object gets the missing keys added and is returned
as-is otherwise.  For a parsed list, `'key' not in progress` is a membership
test and the assignment `progress[key] = []` raises `TypeError` (caught →
default) — unless every key string is already an element, in which case the
list itself is returned.  For a parsed string the membership test is a
substring test with the analogous outcome.  For any other value the
membership test itself raises `TypeError` (caught → default). -/
def load_progress : LedgerFile → JsonVal
  | LedgerFile.absent => defaultProgress
  | LedgerFile.unreadable => defaultProgress
  | LedgerFile.malformed => defaultProgress
  | LedgerFile.parsed v =>
    match v with
    | JsonVal.jobj fields => JsonVal.jobj (ensureKeys fields)
    | JsonVal.jarr items =>
      if PROGRESS_KEYS.all (fun k => items.any (fun it => jsonEqStr it k)) then
        JsonVal.jarr items
      else defaultProgress
    | JsonVal.jstr s =>
      if PROGRESS_KEYS.all (fun k => containsSub k s) then JsonVal.jstr s
      else defaultProgress
    | _ => defaultProgress

/-- Field lookup on a parsed JSON object. -/
def jobjGet? (v : JsonVal) (k : Str) : Option JsonVal :=
  match v with
  | JsonVal.jobj fields => dictGet? fields k
  | _ => none

/-- Invariant tying a run's state to the ledger `p` it started from: the
visited lists only grow, and no URL that was already visited at a level in
`p` is ever fetched at that level. -/
def CrawlInv (p : Ledger) (s : ScrapeState) : Prop :=
  (∀ lvl, ∀ x ∈ p.visited lvl, x ∈ s.ledger.visited lvl) ∧
  (∀ lvl x, x ∈ p.visited lvl → (lvl, x) ∉ s.fetchLog)

/-! ## Theorems -/

theorem sanitize_component_allowed (s : Str) :
    ∀ c ∈ sanitize_component s, allowedPathChar c = true := by
  intro c hc
  simp only [sanitize_component, List.mem_map] at hc
  obtain ⟨a, _, rfl⟩ := hc
  by_cases h : allowedPathChar a = true
  · simpa [h]
  · rw [if_neg h]
    decide

theorem take_sanitize_allowed (n : Nat) (s : Str) :
    ∀ c ∈ (sanitize_component s).take n, allowedPathChar c = true := by
  intro c hc
  exact sanitize_component_allowed s c (List.mem_of_mem_take hc)

/-- Claim C8: for every resource name, each path component derived by the
Page Store contains only characters of the allowed class (word characters,
hyphen, dot, underscore) and respects its length cap: 50 for the dataset
name component and 30 for the area, subtask and task components. -/
theorem c8_sanitized_components_safe (s : Str) :
    (dataset_name_component s).length ≤ 50 ∧
    (area_name_component s).length ≤ 30 ∧
    (subtask_name_component s).length ≤ 30 ∧
    (task_name_component s).length ≤ 30 ∧
    (∀ c ∈ dataset_name_component s, allowedPathChar c = true) ∧
    (∀ c ∈ area_name_component s, allowedPathChar c = true) ∧
    (∀ c ∈ subtask_name_component s, allowedPathChar c = true) ∧
    (∀ c ∈ task_name_component s, allowedPathChar c = true) := by
  refine ⟨?_, ?_, ?_, ?_, ?_, ?_, ?_, ?_⟩
  · simpa [dataset_name_component] using List.length_take_le 50 (sanitize_component s)
  · simpa [area_name_component] using List.length_take_le 30 (sanitize_component s)
  · simpa [subtask_name_component] using List.length_take_le 30 (sanitize_component s)
  · simpa [task_name_component] using List.length_take_le 30 (sanitize_component s)
  · exact take_sanitize_allowed 50 s
  · exact take_sanitize_allowed 30 s
  · exact take_sanitize_allowed 30 s
  · exact take_sanitize_allowed 30 s

/-- Claim C1 as stated is false: for a parent (task) node whose page yields
zero child links (here: the not-found signal), the synthesized child does
not reuse the parent's URL or name — its URL is the parent URL with
`/task/` replaced by `/dataset/` and its name has " Dataset" appended. -/
theorem c1_counterexample :
    extract_datasets_from_task_page
      { name := str "Speech Recognition",
        url := str "https://paperswithcode.com/task/speech-recognition",
        subtask := str "Speech Recognition", area := str "Speech" } none =
      [{ name := str "Speech Recognition Dataset",
         url := str "https://paperswithcode.com/dataset/speech-recognition",
         task := str "Speech Recognition", subtask := str "Speech Recognition",
         area := str "Speech", is_synthetic := true }] ∧
    str "https://paperswithcode.com/dataset/speech-recognition" ≠
      str "https://paperswithcode.com/task/speech-recognition" ∧
    str "Speech Recognition Dataset" ≠ str "Speech Recognition" := by
  refine ⟨?_, by decide, by decide⟩
  decide

/-- Claim C1, amended: for every parent (task) node whose page yields zero
discoverable child links (including the not-found signal), the Crawl
Frontier returns exactly one synthesized child node — flagged synthetic,
named by appending " Dataset" to the parent's name, with the parent's URL
after replacing `/task/` by `/dataset/` — provided that replacement changed
the URL; when the parent URL contains no `/task/` segment, it returns no
child at all. -/
theorem c1_amended_synthetic_fallback (task : TaskNode) (html : Option TaskPage)
    (hempty : html = none ∨ ∃ page, html = some page ∧
        page.headingLinks.filterMap (datasetFromLink task) = [] ∧
        page.directLinks.filterMap (datasetFromLink task) = [] ∧
        page.cardLinks.filterMap (datasetFromLink task) = []) :
    extract_datasets_from_task_page task html =
      (if pyReplace (str "/task/") (str "/dataset/") task.url = task.url then []
       else [{ name := task.name ++ str " Dataset",
               url := pyReplace (str "/task/") (str "/dataset/") task.url,
               task := task.name, subtask := task.subtask, area := task.area,
               is_synthetic := true }]) := by
  rcases hempty with rfl | ⟨page, rfl, h1, h2, h3⟩
  · simp only [extract_datasets_from_task_page, syntheticDataset]
    by_cases h : pyReplace (str "/task/") (str "/dataset/") task.url = task.url
    · simp [h]
    · simp [h]
  · simp only [extract_datasets_from_task_page, syntheticDataset, h1, h2, h3]
    by_cases h : pyReplace (str "/task/") (str "/dataset/") task.url = task.url
    · simp [h]
    · simp [h]

/-- Witness for `c1_amended_synthetic_fallback` at a concrete parent node
and the not-found page. -/
theorem c1_amended_witness :
    extract_datasets_from_task_page
      { name := str "Image Generation",
        url := str "https://paperswithcode.com/task/image-generation",
        subtask := str "Image Generation", area := str "Computer Vision" } none =
      [{ name := str "Image Generation Dataset",
         url := str "https://paperswithcode.com/dataset/image-generation",
         task := str "Image Generation", subtask := str "Image Generation",
         area := str "Computer Vision", is_synthetic := true }] := by
  rw [c1_amended_synthetic_fallback _ none (Or.inl rfl)]
  decide

/-! ### Python dict lemmas -/

theorem dictGet?_map_overwrite {V : Type} (m : List (Str × V)) (k k' : Str) (v : V) :
    dictGet? (m.map (fun p => if p.1 = k then (k, v) else p)) k' =
      if k' = k then (if containsKey m k then some v else none) else dictGet? m k' := by
  induction m with
  | nil => by_cases h : k' = k <;> simp [dictGet?, containsKey, h]
  | cons p m ih =>
    by_cases hp : p.1 = k
    · by_cases hk : k' = k
      · subst hk; simp [dictGet?, hp, containsKey]
      · have hkk' : ¬(k = k') := fun h => hk h.symm
        have hpk' : ¬(p.1 = k') := by rw [hp]; exact hkk'
        simp [dictGet?, hp, hk, hkk', hpk', ih]
    · by_cases hpk' : p.1 = k'
      · have hk : ¬(k' = k) := fun h => hp (h ▸ hpk')
        simp [dictGet?, hp, hpk', hk]
      · simp only [List.map_cons, if_neg hp, dictGet?, ih]
        have hcont : containsKey (p :: m) k = containsKey m k := by
          simp [containsKey, hp]
        rw [hcont]
        simp [hpk']

theorem dictGet?_append_one {V : Type} (m : List (Str × V)) (k k' : Str) (v : V) :
    dictGet? (m ++ [(k, v)]) k' =
      match dictGet? m k' with
      | some w => some w
      | none => if k' = k then some v else none := by
  induction m with
  | nil =>
    by_cases h : k' = k
    · subst h; simp [dictGet?]
    · have hkk' : ¬(k = k') := fun hh => h hh.symm
      simp [dictGet?, h, hkk']
  | cons p m ih =>
    by_cases hpk' : p.1 = k'
    · simp [dictGet?, hpk']
    · simp [dictGet?, hpk', ih]

theorem dictGet?_none_of_not_containsKey {V : Type} (m : List (Str × V)) (k : Str)
    (h : containsKey m k = false) : dictGet? m k = none := by
  induction m with
  | nil => simp [dictGet?]
  | cons p m ih =>
    simp only [containsKey, List.any_cons, Bool.or_eq_false_iff] at h
    have hp : ¬(p.1 = k) := by simpa using h.1
    simp [dictGet?, hp, ih h.2]

theorem pyDictSet_get {V : Type} (m : List (Str × V)) (k k' : Str) (v : V) :
    dictGet? (pyDictSet m k v) k' = if k' = k then some v else dictGet? m k' := by
  by_cases h : containsKey m k
  · rw [pyDictSet, if_pos h, dictGet?_map_overwrite]
    by_cases hk : k' = k <;> simp [hk, h]
  · rw [pyDictSet, if_neg h, dictGet?_append_one]
    have hnone := dictGet?_none_of_not_containsKey m k (by simpa using h)
    by_cases hk : k' = k
    · subst hk; rw [hnone]
    · cases hm : dictGet? m k' <;> simp [hk]

theorem pyFold_get {V : Type} (l : List (Str × V)) (m : List (Str × V)) (k : Str) :
    dictGet? (l.foldl (fun m kv => pyDictSet m kv.1 kv.2) m) k =
      match lastAssoc l k with
      | some v => some v
      | none => dictGet? m k := by
  induction l generalizing m with
  | nil => simp [lastAssoc]
  | cons kv t ih =>
    obtain ⟨a, b⟩ := kv
    simp only [List.foldl_cons, lastAssoc]
    rw [ih]
    cases h : lastAssoc t k with
    | some v => simp
    | none =>
      simp only []
      rw [pyDictSet_get]
      by_cases hk : k = a <;> simp [hk]

theorem pyDictOf_get {V : Type} (l : List (Str × V)) (k : Str) :
    dictGet? (pyDictOf l) k = lastAssoc l k := by
  rw [pyDictOf, pyFold_get]
  cases h : lastAssoc l k <;> simp [dictGet?]

theorem map_overwrite_keys {V : Type} (m : List (Str × V)) (k : Str) (v : V) :
    (m.map (fun p => if p.1 = k then (k, v) else p)).map Prod.fst = m.map Prod.fst := by
  induction m with
  | nil => simp
  | cons p m ih =>
    by_cases hp : p.1 = k
    · simp [hp, ih]
    · simp [hp, ih]

theorem pyDictSet_keys {V : Type} (m : List (Str × V)) (k : Str) (v : V) :
    (pyDictSet m k v).map Prod.fst =
      if containsKey m k then m.map Prod.fst else m.map Prod.fst ++ [k] := by
  by_cases h : containsKey m k
  · rw [pyDictSet, if_pos h, if_pos h, map_overwrite_keys]
  · rw [pyDictSet, if_neg h, if_neg h]
    simp

theorem containsKey_pyDictSet {V : Type} (m : List (Str × V)) (a x : Str) (b : V) :
    containsKey (pyDictSet m a b) x = (containsKey m x || decide (x = a)) := by
  have hkeys : ∀ (n : List (Str × V)), containsKey n x = (n.map Prod.fst).any (fun y => y = x) := by
    intro n
    induction n with
    | nil => simp [containsKey]
    | cons p n ih =>
      simp only [containsKey, List.any_cons, List.map_cons]
      rw [show ((n.any fun p => decide (p.1 = x))) = containsKey n x from rfl, ih]
  rw [hkeys, hkeys, pyDictSet_keys]
  by_cases h : containsKey m a
  · rw [if_pos h]
    by_cases hx : x = a
    · subst hx
      rw [hkeys] at h
      simp [h]
    · simp [hx]
  · rw [if_neg h]
    simp only [List.any_append]
    by_cases hx : x = a
    · subst hx; simp
    · have : ¬(a = x) := fun hh => hx hh.symm
      simp [hx, this]

theorem pyFold_keys {V : Type} (l m : List (Str × V)) :
    ((l.foldl (fun m kv => pyDictSet m kv.1 kv.2) m).map Prod.fst) =
      m.map Prod.fst ++ dedupFirst ((l.map Prod.fst).filter (fun x => !containsKey m x)) := by
  induction l generalizing m with
  | nil => simp [dedupFirst]
  | cons kv t ih =>
    obtain ⟨a, b⟩ := kv
    simp only [List.foldl_cons, List.map_cons, List.filter_cons]
    rw [ih]
    by_cases h : containsKey m a
    · rw [pyDictSet_keys, if_pos h]
      have hfa : (!containsKey m a) = false := by simp [h]
      rw [hfa]
      simp only [Bool.false_eq_true, if_false]
      have hfilter :
          (t.map Prod.fst).filter (fun x => !containsKey (pyDictSet m a b) x) =
          (t.map Prod.fst).filter (fun x => !containsKey m x) := by
        apply List.filter_congr
        intro x _
        rw [containsKey_pyDictSet]
        by_cases hx : x = a
        · subst hx; simp [h]
        · simp [hx]
      rw [hfilter]
    · rw [pyDictSet_keys, if_neg h]
      have hfa : (!containsKey m a) = true := by simp [h]
      rw [hfa]
      simp only [if_true]
      rw [dedupFirst]
      have hfilter :
          (t.map Prod.fst).filter (fun x => !containsKey (pyDictSet m a b) x) =
          ((t.map Prod.fst).filter (fun x => !containsKey m x)).filter (fun x => x ≠ a) := by
        rw [List.filter_filter]
        apply List.filter_congr
        intro x _
        rw [containsKey_pyDictSet]
        by_cases hx : x = a
        · subst hx; simp
        · simp [hx]
      rw [hfilter]
      simp

theorem pyDictOf_keys {V : Type} (l : List (Str × V)) :
    (pyDictOf l).map Prod.fst = dedupFirst (l.map Prod.fst) := by
  rw [pyDictOf, pyFold_keys]
  have : (l.map Prod.fst).filter (fun x => !containsKey ([] : List (Str × V)) x) =
      l.map Prod.fst := by
    apply List.filter_eq_self.2
    intro x _
    simp [containsKey]
  rw [this]
  simp

theorem dedupFirst_subset : ∀ (l : List Str), ∀ x ∈ dedupFirst l, x ∈ l := by
  have key : ∀ (n : Nat) (l : List Str), l.length ≤ n → ∀ x ∈ dedupFirst l, x ∈ l := by
    intro n
    induction n with
    | zero =>
      intro l hl x hx
      cases l with
      | nil => simp [dedupFirst] at hx
      | cons k rest => simp at hl
    | succ n ih =>
      intro l hl x hx
      cases l with
      | nil => simp [dedupFirst] at hx
      | cons k rest =>
        rw [dedupFirst] at hx
        rcases List.mem_cons.1 hx with rfl | hx
        · exact List.mem_cons_self _ _
        · have hlen : (rest.filter (fun y => y ≠ k)).length ≤ n := by
            have := List.length_filter_le (fun y => y ≠ k) rest
            simp only [List.length_cons] at hl
            omega
          have := ih _ hlen x hx
          exact List.mem_cons_of_mem _ (List.mem_of_mem_filter this)
  exact fun l => key l.length l le_rfl

theorem dedupFirst_nodup : ∀ (l : List Str), (dedupFirst l).Nodup := by
  have key : ∀ (n : Nat) (l : List Str), l.length ≤ n → (dedupFirst l).Nodup := by
    intro n
    induction n with
    | zero =>
      intro l hl
      cases l with
      | nil => simp [dedupFirst]
      | cons k rest => simp at hl
    | succ n ih =>
      intro l hl
      cases l with
      | nil => simp [dedupFirst]
      | cons k rest =>
        rw [dedupFirst]
        have hlen : (rest.filter (fun y => y ≠ k)).length ≤ n := by
          have := List.length_filter_le (fun y => y ≠ k) rest
          simp only [List.length_cons] at hl
          omega
        refine List.nodup_cons.2 ⟨?_, ih _ hlen⟩
        intro hk
        have hmem := dedupFirst_subset _ _ hk
        have := List.of_mem_filter hmem
        simp at this
  exact fun l => key l.length l le_rfl

theorem pyDictSet_entries {V : Type} (m : List (Str × V)) (k : Str) (v : V) :
    ∀ q ∈ pyDictSet m k v, q ∈ m ∨ q = (k, v) := by
  intro q hq
  by_cases h : containsKey m k
  · rw [pyDictSet, if_pos h] at hq
    obtain ⟨p, hp, hq⟩ := List.mem_map.1 hq
    by_cases hpk : p.1 = k
    · right; rw [← hq, if_pos hpk]
    · left; rw [← hq, if_neg hpk]; exact hp
  · rw [pyDictSet, if_neg h] at hq
    rcases List.mem_append.1 hq with h1 | h1
    · left; exact h1
    · right; simpa using h1

theorem pyDictOf_entries {V : Type} (l : List (Str × V)) :
    ∀ q ∈ pyDictOf l, q ∈ l := by
  have key : ∀ (l m : List (Str × V)) (q : Str × V),
      q ∈ l.foldl (fun m kv => pyDictSet m kv.1 kv.2) m → q ∈ m ∨ q ∈ l := by
    intro l
    induction l with
    | nil => intro m q hq; left; simpa using hq
    | cons kv t ih =>
      intro m q hq
      simp only [List.foldl_cons] at hq
      rcases ih _ q hq with hin | hin
      · rcases pyDictSet_entries m kv.1 kv.2 q hin with h1 | h1
        · left; exact h1
        · right
          have hqkv : q = kv := by rw [h1]
          rw [hqkv]
          exact List.mem_cons_self _ _
      · right; exact List.mem_cons_of_mem _ hin
  intro q hq
  rcases key l [] q hq with h | h
  · simp at h
  · exact h

theorem dictGet?_of_mem_nodup {V : Type} (m : List (Str × V))
    (hn : (m.map Prod.fst).Nodup) :
    ∀ p ∈ m, dictGet? m p.1 = some p.2 := by
  induction m with
  | nil => simp
  | cons q m ih =>
    intro p hp
    have hn' : (q.1 :: m.map Prod.fst).Nodup := by
      rw [List.map_cons] at hn; exact hn
    rcases List.mem_cons.1 hp with rfl | hp
    · simp [dictGet?]
    · have hq : ¬(q.1 = p.1) := by
        intro h
        apply (List.nodup_cons.1 hn').1
        rw [h]
        exact List.mem_map_of_mem Prod.fst hp
      have ih' := ih (List.nodup_cons.1 hn').2 p hp
      simp [dictGet?, hq, ih']

theorem subtaskFromLink_url (area : AreaNode) (link : RawLink) (q : Str × SubtaskNode)
    (h : subtaskFromLink area link = some q) : q.2.url = q.1 := by
  rw [subtaskFromLink] at h
  split at h <;> split at h <;>
    first
      | rw [← Option.some.inj h]
      | exact absurd h (by simp)

theorem extract_subtasks_eq_dict (area : AreaNode) (page : AreaPage) :
    extract_subtasks_from_area_page area page =
      pyDictValues (pyDictOf ((chosenSubtaskLinks page).filterMap (subtaskFromLink area))) := by
  by_cases h : chosenSubtaskLinks page = []
  · simp [extract_subtasks_from_area_page, h, pyDictValues, pyDictOf]
  · simp [extract_subtasks_from_area_page, h]

/-- Claim C9, amended: within one parent page the Crawl Frontier's child
collection is de-duplicated by URL with the key order of first occurrences
preserved, but the node stored for a URL is the one built from the URL's
last occurrence (a later duplicate overwrites the stored node in place),
not its first. -/
theorem c9_amended_dedup_last_occurrence (area : AreaNode) (page : AreaPage) :
    ((extract_subtasks_from_area_page area page).map (fun n => n.url) =
      dedupFirst (((chosenSubtaskLinks page).filterMap (subtaskFromLink area)).map
        Prod.fst)) ∧
    (∀ n ∈ extract_subtasks_from_area_page area page,
      lastAssoc ((chosenSubtaskLinks page).filterMap (subtaskFromLink area)) n.url =
        some n) := by
  have hx := extract_subtasks_eq_dict area page
  have hinv : ∀ q ∈ (chosenSubtaskLinks page).filterMap (subtaskFromLink area),
      (q : Str × SubtaskNode).2.url = q.1 := by
    intro q hq
    obtain ⟨link, _, hl⟩ := List.mem_filterMap.1 hq
    exact subtaskFromLink_url area link q hl
  constructor
  · rw [hx, pyDictValues, List.map_map]
    have hpoint : ∀ q ∈ pyDictOf ((chosenSubtaskLinks page).filterMap
        (subtaskFromLink area)), ((fun n => n.url) ∘ Prod.snd) q = Prod.fst q := by
      intro q hq
      exact hinv q (pyDictOf_entries _ q hq)
    rw [List.map_congr_left hpoint]
    exact pyDictOf_keys _
  · intro n hn
    rw [hx] at hn
    obtain ⟨q, hq, rfl⟩ := List.mem_map.1 hn
    have hk : q.2.url = q.1 := hinv q (pyDictOf_entries _ q hq)
    rw [hk, ← pyDictOf_get]
    have hnodup : ((pyDictOf ((chosenSubtaskLinks page).filterMap
        (subtaskFromLink area))).map Prod.fst).Nodup := by
      rw [pyDictOf_keys]; exact dedupFirst_nodup _
    exact dictGet?_of_mem_nodup _ hnodup q hq

/-- Claim C9 as stated is false: when the same URL occurs twice under one
parent with different anchor texts, the kept node carries the second
occurrence's name, not the first occurrence's. -/
theorem c9_counterexample :
    extract_subtasks_from_area_page
      { name := str "Computer Vision",
        url := str "https://paperswithcode.com/area/computer-vision" }
      { sotaAllTasksLinks := some
          [{ text := str "First Name", href := str "/task/x" },
           { text := str "Second Name", href := str "/task/x" }],
        pageTaskLinks := [], cardTaskLinks := [] } =
      [{ name := str "Second Name",
         url := str "https://paperswithcode.com/task/x",
         area := str "Computer Vision" }] ∧
    str "Second Name" ≠ str "First Name" := by
  refine ⟨?_, by decide⟩
  decide

theorem foldl_preserves {α σ : Type} (f : σ → α → σ) (P : σ → Prop)
    (hf : ∀ s a, P s → P (f s a)) :
    ∀ (l : List α) (s : σ), P s → P (l.foldl f s) := by
  intro l
  induction l with
  | nil => intro s hs; exact hs
  | cons a t ih => intro s hs; exact ih _ (hf s a hs)

theorem processDataset_inv (w : CrawlWorld) (p : Ledger) (s : ScrapeState)
    (d : DatasetNode) (h : CrawlInv p s) : CrawlInv p (processDataset w s d) := by
  obtain ⟨h1, h2⟩ := h
  simp only [processDataset]
  split
  · exact ⟨h1, h2⟩
  · rename_i hskip
    constructor
    · intro lvl x hx
      have hold := h1 lvl x hx
      split <;> cases lvl <;>
        simp only [Ledger.visited] at hold ⊢ <;>
        first
          | exact hold
          | exact List.mem_append.2 (Or.inl hold)
    · intro lvl x hx
      have hold := h2 lvl x hx
      have hcur : x ∈ s.ledger.visited lvl := h1 lvl x hx
      split <;>
        (intro hmem
         rcases List.mem_append.1 hmem with hm | hm
         · exact hold hm
         · split at hm
           · simp only [List.mem_singleton, Prod.mk.injEq] at hm
             obtain ⟨hl, hu⟩ := hm
             subst hl; subst hu
             simp only [Ledger.visited] at hcur
             exact hskip hcur
           · simp at hm)

theorem logFetch_inv (p : Ledger) (s : ScrapeState) (lvl0 : Level) (u : Str)
    (h : CrawlInv p s) (hfree : u ∉ s.ledger.visited lvl0) :
    CrawlInv p (logFetch lvl0 u s) := by
  obtain ⟨h1, h2⟩ := h
  constructor
  · intro lvl x hx
    simpa [logFetch] using h1 lvl x hx
  · intro lvl x hx hmem
    simp only [logFetch] at hmem
    rcases List.mem_append.1 hmem with hm | hm
    · exact h2 lvl x hx hm
    · simp only [List.mem_singleton, Prod.mk.injEq] at hm
      obtain ⟨hl, hu⟩ := hm
      have hx' : u ∈ s.ledger.visited lvl0 := by
        rw [← hl, ← hu]
        exact h1 lvl x hx
      exact hfree hx'

theorem processTask_inv (w : CrawlWorld) (p : Ledger) (s : ScrapeState)
    (t : TaskNode) (h : CrawlInv p s) : CrawlInv p (processTask w s t) := by
  simp only [processTask]
  split
  · exact h
  · rename_i hskip
    have hinv1 : CrawlInv p (logFetch Level.task t.url s) :=
      logFetch_inv p s Level.task t.url h (by simpa [Ledger.visited] using hskip)
    cases hf : w.fetch t.url with
    | none => exact hinv1
    | some body =>
      have hfold := foldl_preserves (processDataset w) (CrawlInv p)
        (fun s' d hs => processDataset_inv w p s' d hs)
        (extract_datasets_from_task_page t (some (w.taskPageOf t))) _ hinv1
      obtain ⟨g1, g2⟩ := hfold
      constructor
      · intro lvl x hx
        have hg := g1 lvl x hx
        cases lvl <;>
          simp only [Ledger.visited] at hg ⊢ <;>
          first
            | exact hg
            | exact List.mem_append.2 (Or.inl hg)
      · intro lvl x hx
        exact g2 lvl x hx

theorem processSubtask_inv (w : CrawlWorld) (p : Ledger) (s : ScrapeState)
    (st : SubtaskNode) (h : CrawlInv p s) : CrawlInv p (processSubtask w s st) := by
  simp only [processSubtask]
  split
  · exact h
  · rename_i hskip
    have hinv1 : CrawlInv p (logFetch Level.subtask st.url s) :=
      logFetch_inv p s Level.subtask st.url h (by simpa [Ledger.visited] using hskip)
    cases hf : w.fetch st.url with
    | none => exact hinv1
    | some body =>
      have hfold := foldl_preserves (processTask w) (CrawlInv p)
        (fun s' t hs => processTask_inv w p s' t hs)
        [taskFromSubtask st] _ hinv1
      obtain ⟨g1, g2⟩ := hfold
      constructor
      · intro lvl x hx
        have hg := g1 lvl x hx
        cases lvl <;>
          simp only [Ledger.visited] at hg ⊢ <;>
          first
            | exact hg
            | exact List.mem_append.2 (Or.inl hg)
      · intro lvl x hx
        exact g2 lvl x hx

theorem processArea_inv (w : CrawlWorld) (p : Ledger) (s : ScrapeState)
    (a : AreaNode) (h : CrawlInv p s) : CrawlInv p (processArea w s a) := by
  simp only [processArea]
  split
  · exact h
  · rename_i hskip
    have hinv1 : CrawlInv p (logFetch Level.area a.url s) :=
      logFetch_inv p s Level.area a.url h (by simpa [Ledger.visited] using hskip)
    cases hf : w.fetch a.url with
    | none => exact hinv1
    | some body =>
      have hfold := foldl_preserves (processSubtask w) (CrawlInv p)
        (fun s' st hs => processSubtask_inv w p s' st hs)
        (extract_subtasks_from_area_page a (w.areaPageOf a)) _ hinv1
      obtain ⟨g1, g2⟩ := hfold
      constructor
      · intro lvl x hx
        have hg := g1 lvl x hx
        cases lvl <;>
          simp only [Ledger.visited] at hg ⊢ <;>
          first
            | exact hg
            | exact List.mem_append.2 (Or.inl hg)
      · intro lvl x hx
        exact g2 lvl x hx

theorem scrape_inv (w : CrawlWorld) (areas : List AreaNode) (p : Ledger)
    (fs0 : List (Str × Str)) : CrawlInv p (scrape_paperswithcode w areas p fs0) := by
  apply foldl_preserves (processArea w) (CrawlInv p)
    (fun s' a hs => processArea_inv w p s' a hs)
  constructor
  · intro lvl x hx; exact hx
  · intro lvl x hx hmem; simp at hmem

theorem processDataset_log_ext (w : CrawlWorld) (s : ScrapeState) (d : DatasetNode) :
    ∃ tl, (processDataset w s d).fetchLog = s.fetchLog ++ tl := by
  simp only [processDataset]
  split
  · exact ⟨[], by simp⟩
  · refine ⟨(if (save_dataset_page w.fetch s.files d).2.2
      then [(Level.dataset, d.url)] else []), ?_⟩
    split <;> rfl

theorem foldl_log_ext {α : Type} (f : ScrapeState → α → ScrapeState)
    (hf : ∀ s a, ∃ tl, (f s a).fetchLog = s.fetchLog ++ tl) :
    ∀ (l : List α) (s : ScrapeState),
      ∃ tl, (l.foldl f s).fetchLog = s.fetchLog ++ tl := by
  intro l
  induction l with
  | nil => intro s; exact ⟨[], by simp⟩
  | cons a t ih =>
    intro s
    obtain ⟨t2, h2⟩ := ih (f s a)
    obtain ⟨t1, h1⟩ := hf s a
    exact ⟨t1 ++ t2, by simp only [List.foldl_cons, h2, h1, List.append_assoc]⟩

theorem processTask_log_ext (w : CrawlWorld) (s : ScrapeState) (t : TaskNode) :
    ∃ tl, (processTask w s t).fetchLog = s.fetchLog ++ tl := by
  simp only [processTask]
  split
  · exact ⟨[], by simp⟩
  · cases hf : w.fetch t.url with
    | none => exact ⟨[(Level.task, t.url)], rfl⟩
    | some body =>
      obtain ⟨t2, h2⟩ := foldl_log_ext (processDataset w) (processDataset_log_ext w)
        (extract_datasets_from_task_page t (some (w.taskPageOf t)))
        (logFetch Level.task t.url s)
      refine ⟨[(Level.task, t.url)] ++ t2, ?_⟩
      show (List.foldl (processDataset w) (logFetch Level.task t.url s) _).fetchLog = _
      rw [h2]
      simp [logFetch]

theorem processSubtask_log_ext (w : CrawlWorld) (s : ScrapeState) (st : SubtaskNode) :
    ∃ tl, (processSubtask w s st).fetchLog = s.fetchLog ++ tl := by
  simp only [processSubtask]
  split
  · exact ⟨[], by simp⟩
  · cases hf : w.fetch st.url with
    | none => exact ⟨[(Level.subtask, st.url)], rfl⟩
    | some body =>
      obtain ⟨t2, h2⟩ := foldl_log_ext (processTask w) (processTask_log_ext w)
        [taskFromSubtask st] (logFetch Level.subtask st.url s)
      refine ⟨[(Level.subtask, st.url)] ++ t2, ?_⟩
      show (List.foldl (processTask w) (logFetch Level.subtask st.url s) _).fetchLog = _
      rw [h2]
      simp [logFetch]

theorem processArea_log_ext (w : CrawlWorld) (s : ScrapeState) (a : AreaNode) :
    ∃ tl, (processArea w s a).fetchLog = s.fetchLog ++ tl := by
  simp only [processArea]
  split
  · exact ⟨[], by simp⟩
  · cases hf : w.fetch a.url with
    | none => exact ⟨[(Level.area, a.url)], rfl⟩
    | some body =>
      obtain ⟨t2, h2⟩ := foldl_log_ext (processSubtask w) (processSubtask_log_ext w)
        (extract_subtasks_from_area_page a (w.areaPageOf a))
        (logFetch Level.area a.url s)
      refine ⟨[(Level.area, a.url)] ++ t2, ?_⟩
      show (List.foldl (processSubtask w) (logFetch Level.area a.url s) _).fetchLog = _
      rw [h2]
      simp [logFetch]

theorem processDataset_areas (w : CrawlWorld) (s : ScrapeState) (d : DatasetNode) :
    (processDataset w s d).ledger.processed_areas = s.ledger.processed_areas := by
  simp only [processDataset]
  split
  · rfl
  · split <;> rfl

theorem processTask_areas (w : CrawlWorld) (s : ScrapeState) (t : TaskNode) :
    (processTask w s t).ledger.processed_areas = s.ledger.processed_areas := by
  simp only [processTask]
  split
  · rfl
  · split
    · rfl
    · exact foldl_preserves (processDataset w)
        (fun st => st.ledger.processed_areas = s.ledger.processed_areas)
        (fun s' d hs => (processDataset_areas w s' d).trans hs)
        (extract_datasets_from_task_page t (some (w.taskPageOf t)))
        (logFetch Level.task t.url s) rfl

theorem processSubtask_areas (w : CrawlWorld) (s : ScrapeState) (st : SubtaskNode) :
    (processSubtask w s st).ledger.processed_areas = s.ledger.processed_areas := by
  simp only [processSubtask]
  split
  · rfl
  · split
    · rfl
    · exact foldl_preserves (processTask w)
        (fun s' => s'.ledger.processed_areas = s.ledger.processed_areas)
        (fun s' t hs => (processTask_areas w s' t).trans hs)
        [taskFromSubtask st] (logFetch Level.subtask st.url s) rfl

theorem processArea_areas_sub (w : CrawlWorld) (s : ScrapeState) (a : AreaNode)
    (x : Str) (hx : x ∈ (processArea w s a).ledger.processed_areas) :
    x ∈ s.ledger.processed_areas ∨ x = a.url := by
  revert hx
  simp only [processArea]
  split
  · exact fun hx => Or.inl hx
  · split
    · exact fun hx => Or.inl hx
    · intro hx
      have hpres := foldl_preserves (processSubtask w)
        (fun s' => s'.ledger.processed_areas = s.ledger.processed_areas)
        (fun s' st hs => (processSubtask_areas w s' st).trans hs)
        (extract_subtasks_from_area_page a (w.areaPageOf a))
        (logFetch Level.area a.url s) rfl
      rcases List.mem_append.1 hx with hm | hm
      · rw [hpres] at hm
        exact Or.inl hm
      · exact Or.inr (by simpa using hm)

theorem processArea_logs_own (w : CrawlWorld) (s : ScrapeState) (a : AreaNode)
    (hnot : a.url ∉ s.ledger.processed_areas) :
    (Level.area, a.url) ∈ (processArea w s a).fetchLog := by
  simp only [processArea]
  rw [if_neg hnot]
  split
  · simp [logFetch]
  · obtain ⟨t2, h2⟩ := foldl_log_ext (processSubtask w) (processSubtask_log_ext w)
      (extract_subtasks_from_area_page a (w.areaPageOf a))
      (logFetch Level.area a.url s)
    show (Level.area, a.url) ∈
      (List.foldl (processSubtask w) (logFetch Level.area a.url s)
        (extract_subtasks_from_area_page a (w.areaPageOf a))).fetchLog
    rw [h2]
    simp [logFetch]

theorem processArea_K (w : CrawlWorld) (X : Str) (s : ScrapeState) (a : AreaNode)
    (hK : (Level.area, X) ∈ s.fetchLog ∨ X ∉ s.ledger.processed_areas) :
    (Level.area, X) ∈ (processArea w s a).fetchLog ∨
      X ∉ (processArea w s a).ledger.processed_areas := by
  rcases hK with hlog | hnot
  · left
    obtain ⟨tl, htl⟩ := processArea_log_ext w s a
    rw [htl]
    exact List.mem_append.2 (Or.inl hlog)
  · by_cases hx : X = a.url
    · subst hx
      exact Or.inl (processArea_logs_own w s a hnot)
    · right
      intro hmem
      rcases processArea_areas_sub w s a X hmem with h | h
      · exact hnot h
      · exact hx h

theorem scrape_fetches_unvisited_area (w : CrawlWorld) (X : Str) :
    ∀ (areas : List AreaNode) (s : ScrapeState),
      ((Level.area, X) ∈ s.fetchLog ∨ X ∉ s.ledger.processed_areas) →
      X ∈ areas.map (fun a => a.url) →
      (Level.area, X) ∈ (areas.foldl (processArea w) s).fetchLog := by
  intro areas
  induction areas with
  | nil => intro s _ hX; simp at hX
  | cons a rest ih =>
    intro s hK hX
    simp only [List.map_cons, List.mem_cons] at hX
    rcases hX with hx | hx
    · subst hx
      have hstep : (Level.area, a.url) ∈ (processArea w s a).fetchLog := by
        rcases hK with hlog | hnot
        · obtain ⟨tl, htl⟩ := processArea_log_ext w s a
          rw [htl]
          exact List.mem_append.2 (Or.inl hlog)
        · exact processArea_logs_own w s a hnot
      obtain ⟨tl, htl⟩ := foldl_log_ext (processArea w) (processArea_log_ext w)
        rest (processArea w s a)
      simp only [List.foldl_cons]
      rw [htl]
      exact List.mem_append.2 (Or.inl hstep)
    · simp only [List.foldl_cons]
      exact ih (processArea w s a) (processArea_K w X s a hK) hx

/-- Claim C3, amended: a subsequent run never fetches a URL that the ledger
already marks visited at that URL's level, and every *area-level* URL not
present in the ledger is still fetched.  URLs at deeper levels, however, are
reached only through their parent chain: a descendant of an already-visited
ancestor is not re-processed even when it is absent from the ledger. -/
theorem c3_amended_ledger_resumability (w : CrawlWorld) (areas : List AreaNode)
    (p : Ledger) (fs0 : List (Str × Str)) :
    (∀ lvl X, X ∈ p.visited lvl →
      (lvl, X) ∉ (scrape_paperswithcode w areas p fs0).fetchLog) ∧
    (∀ X, X ∈ areas.map (fun a => a.url) → X ∉ p.processed_areas →
      (Level.area, X) ∈ (scrape_paperswithcode w areas p fs0).fetchLog) := by
  constructor
  · exact (scrape_inv w areas p fs0).2
  · intro X hX hnot
    exact scrape_fetches_unvisited_area w X areas
      { ledger := p, files := fs0, fetchLog := [] } (Or.inr hnot) hX

/-- Witness for `c3_amended_ledger_resumability`: with the area already in
the ledger its URL is not fetched again, and from a fresh ledger it is. -/
theorem c3_amended_witness :
    (Level.area, str "https://paperswithcode.com/area/speech") ∉
      (scrape_paperswithcode c3World [c3Area] c3VisitedLedger []).fetchLog ∧
    (Level.area, str "https://paperswithcode.com/area/speech") ∈
      (scrape_paperswithcode c3World [c3Area] c3EmptyLedger []).fetchLog := by
  constructor
  · exact (c3_amended_ledger_resumability c3World [c3Area] c3VisitedLedger []).1
      Level.area (str "https://paperswithcode.com/area/speech") (by decide)
  · exact (c3_amended_ledger_resumability c3World [c3Area] c3EmptyLedger []).2
      (str "https://paperswithcode.com/area/speech") (by decide) (by decide)

/-- Claim C3 as stated is false: the subtask URL below is absent from the
ledger's visited set for its level, yet a run over a ledger whose only entry
is its parent area never fetches it ("processed" here meaning the loop
attempts its page fetch).  A run from a fresh ledger does fetch it, so the
URL is genuinely reachable and the omission comes from the parent-level
skip alone. -/
theorem c3_counterexample :
    (str "https://paperswithcode.com/task/speech-recognition") ∉
      c3VisitedLedger.processed_subtasks ∧
    (Level.subtask, str "https://paperswithcode.com/task/speech-recognition") ∉
      (scrape_paperswithcode c3World [c3Area] c3VisitedLedger []).fetchLog ∧
    (Level.subtask, str "https://paperswithcode.com/task/speech-recognition") ∈
      (scrape_paperswithcode c3World [c3Area] c3EmptyLedger []).fetchLog := by
  refine ⟨by decide, by decide, by decide⟩

/-- Witness for `c9_amended_dedup_last_occurrence` at a concrete page with a
duplicated URL. -/
theorem c9_amended_witness :
    lastAssoc ((chosenSubtaskLinks
        { sotaAllTasksLinks := some
            [{ text := str "A", href := str "/task/y" },
             { text := str "B", href := str "/task/y" }],
          pageTaskLinks := [], cardTaskLinks := [] }).filterMap
        (subtaskFromLink
          { name := str "Audio", url := str "https://paperswithcode.com/area/audio" }))
      (str "https://paperswithcode.com/task/y") =
      some { name := str "B", url := str "https://paperswithcode.com/task/y",
             area := str "Audio" } := by
  exact (c9_amended_dedup_last_occurrence
    { name := str "Audio", url := str "https://paperswithcode.com/area/audio" }
    { sotaAllTasksLinks := some
        [{ text := str "A", href := str "/task/y" },
         { text := str "B", href := str "/task/y" }],
      pageTaskLinks := [], cardTaskLinks := [] }).2
    { name := str "B", url := str "https://paperswithcode.com/task/y",
      area := str "Audio" } (by decide)

theorem containsKey_append_last {V : Type} (m : List (Str × V)) (p : Str) (b : V) :
    containsKey (m ++ [(p, b)]) p = true := by
  simp [containsKey, List.any_append]

/-- Claim C4: both Page Stores are idempotent on the destination path.  When
the destination file already exists, one call returns success with no
network request and the stored filesystem unchanged — under any network
oracle, i.e. even if the remote content changed.  Consequently, after a
first successful call, a second call for the same destination (under a
possibly different oracle) succeeds without fetching and never rewrites the
stored file. -/
theorem c4_page_store_idempotent
    (fetch1 fetch2 : Str → Option Str) (files : List (Str × Str))
    (dataset_name dataset_url : Str) (d : DatasetNode) :
    (containsKey files (hf_dataset_file_path dataset_name) = true →
      download_dataset_page fetch1 files dataset_name dataset_url =
        (true, files, false)) ∧
    ((download_dataset_page fetch1 files dataset_name dataset_url).1 = true →
      download_dataset_page fetch2
        (download_dataset_page fetch1 files dataset_name dataset_url).2.1
        dataset_name dataset_url =
      (true, (download_dataset_page fetch1 files dataset_name dataset_url).2.1,
        false)) ∧
    (containsKey files (dataset_file_path d) = true →
      save_dataset_page fetch1 files d = (true, files, false)) ∧
    ((save_dataset_page fetch1 files d).1 = true →
      save_dataset_page fetch2 (save_dataset_page fetch1 files d).2.1 d =
      (true, (save_dataset_page fetch1 files d).2.1, false)) := by
  refine ⟨?_, ?_, ?_, ?_⟩
  · intro h
    simp only [download_dataset_page]
    rw [if_pos h]
  · intro h1
    have hcont : containsKey
        (download_dataset_page fetch1 files dataset_name dataset_url).2.1
        (hf_dataset_file_path dataset_name) = true := by
      by_cases h : containsKey files (hf_dataset_file_path dataset_name)
      · simp only [download_dataset_page]
        rw [if_pos h]
        exact h
      · simp only [download_dataset_page] at h1 ⊢
        rw [if_neg h] at h1 ⊢
        cases hf : fetch1 dataset_url with
        | none => rw [hf] at h1; simp at h1
        | some body => exact containsKey_append_last files _ body
    generalize hR : (download_dataset_page fetch1 files dataset_name dataset_url).2.1 = R at hcont ⊢
    simp only [download_dataset_page]
    rw [if_pos hcont]
  · intro h
    simp only [save_dataset_page]
    rw [if_pos h]
  · intro h1
    have hcont : containsKey (save_dataset_page fetch1 files d).2.1
        (dataset_file_path d) = true := by
      by_cases h : containsKey files (dataset_file_path d)
      · simp only [save_dataset_page]
        rw [if_pos h]
        exact h
      · simp only [save_dataset_page] at h1 ⊢
        rw [if_neg h] at h1 ⊢
        by_cases hsyn : d.is_synthetic
        · rw [if_pos hsyn] at h1 ⊢
          exact containsKey_append_last files _ _
        · rw [if_neg hsyn] at h1 ⊢
          cases hf : fetch1 d.url with
          | none => rw [hf] at h1; simp at h1
          | some body => exact containsKey_append_last files _ body
    generalize hR : (save_dataset_page fetch1 files d).2.1 = R at hcont ⊢
    simp only [save_dataset_page]
    rw [if_pos hcont]

/-- Witness for `c4_page_store_idempotent`: after a first successful
download the second call — under an oracle returning different remote
content — succeeds without any network request and leaves the store
unchanged. -/
theorem c4_witness :
    download_dataset_page (fun _ => some (str "v2"))
      (download_dataset_page (fun _ => some (str "v1")) []
        (str "squad") (str "https://huggingface.co/datasets/squad")).2.1
      (str "squad") (str "https://huggingface.co/datasets/squad") =
    (true,
      (download_dataset_page (fun _ => some (str "v1")) []
        (str "squad") (str "https://huggingface.co/datasets/squad")).2.1,
      false) := by
  exact (c4_page_store_idempotent (fun _ => some (str "v1")) (fun _ => some (str "v2"))
    [] (str "squad") (str "https://huggingface.co/datasets/squad")
    { name := str "d", url := str "u", task := str "t", subtask := str "s",
      area := str "a" }).2.1 (by decide)

/-- Claim C2 as stated is false: on a stored page with the scenario's title
and meta description but no JSON-LD, the Hugging Face Field Extractor
leaves `num_train_examples`, `num_test_examples` and `modality` empty (it
reads split counts only from the JSON-LD Dataset Summary and never reads
the title or the meta-description tag), and the record name is the
filename-derived dataset name; the PwC name extractor strips only the
literal " | Papers With Code" suffix, so the scenario title comes back
whole rather than as "Speech Commands Dataset". -/
theorem c2_counterexample :
    getField (extract_dataset_info (str "speech_commands") (some c2ScenarioPage))
      (str "num_train_examples") = str "" ∧
    getField (extract_dataset_info (str "speech_commands") (some c2ScenarioPage))
      (str "num_test_examples") = str "" ∧
    getField (extract_dataset_info (str "speech_commands") (some c2ScenarioPage))
      (str "modality") = str "" ∧
    getField (extract_dataset_info (str "speech_commands") (some c2ScenarioPage))
      (str "benchmark_name") = str "speech_commands" ∧
    extract_dataset_name (some (str "Speech Commands Dataset | Example Site")) none =
      str "Speech Commands Dataset | Example Site" ∧
    str "Speech Commands Dataset | Example Site" ≠ str "Speech Commands Dataset" ∧
    str "" ≠ str "Audio" := by
  refine ⟨by decide, by decide, by decide, by decide, by decide, by decide, by decide⟩

/-- Claim C2, amended: the extractor's output never depends on the
meta-description tag; when the text "train: 10,000 examples, test: 5,000
examples" instead appears in the JSON-LD Dataset Summary that the extractor
does read, the record gets num_train_examples "10000" and
num_test_examples "5000", but its modality is the default "Text" — the
keyword scan sees only the summary text, which does not contain "speech" —
and its name is the filename-derived dataset name argument, the title never
being consulted. -/
theorem c2_amended_extraction (dataset_name : Str) (pg : HfPage) (d : Option Str) :
    (extract_dataset_info dataset_name (some { pg with metaDescription := d }) =
      extract_dataset_info dataset_name (some pg)) ∧
    getField (extract_dataset_info (str "speech_commands") (some c2SummaryPage))
      (str "num_train_examples") = str "10000" ∧
    getField (extract_dataset_info (str "speech_commands") (some c2SummaryPage))
      (str "num_test_examples") = str "5000" ∧
    getField (extract_dataset_info (str "speech_commands") (some c2SummaryPage))
      (str "modality") = str "Text" ∧
    getField (extract_dataset_info (str "speech_commands") (some c2SummaryPage))
      (str "benchmark_name") = str "speech_commands" := by
  refine ⟨rfl, by decide, by decide, by decide, by decide⟩

theorem containsKey_eq_false_of_not_mem {V : Type} (m : List (Str × V)) (k : Str)
    (h : k ∉ m.map Prod.fst) : containsKey m k = false := by
  induction m with
  | nil => rfl
  | cons p m ih =>
    simp only [List.map_cons, List.mem_cons, not_or] at h
    have h1 : ¬(p.1 = k) := fun hh => h.1 hh.symm
    have h2 := ih h.2
    simp only [containsKey, List.any_cons] at h2 ⊢
    simp [h1, h2]

/-- Claim C5, amended: the Hugging Face writer (`save_to_csv`) emits, for
every input record, exactly the declared column count in declared order
with missing fields rendered as the empty string; the PwC writer takes its
column list from the record's own keys, so it matches the declared 19-column
schema only for records carrying exactly those keys — a record missing
declared fields yields a shorter row. -/
theorem c5_amended_schema_stability :
    (∀ item : Record, (save_to_csv_row item).length = BENCHMARK_FIELDS.length) ∧
    (∀ (item : Record) (i : Nat) (f : Str), BENCHMARK_FIELDS[i]? = some f →
      f ∉ item.map Prod.fst → (save_to_csv_row item)[i]? = some (str "")) ∧
    (∀ item : Record, item.map Prod.fst = PWC_CSV_HEADERS →
      (pwc_write_row item).length = PWC_CSV_HEADERS.length) := by
  refine ⟨?_, ?_, ?_⟩
  · intro item
    simp [save_to_csv_row]
  · intro item i f hf hnot
    have hmap : (save_to_csv_row item)[i]? =
        (BENCHMARK_FIELDS[i]?).map (fun field => (dictGet? item field).getD []) := by
      simp [save_to_csv_row]
    rw [hmap, hf]
    have hnone : dictGet? item f = none :=
      dictGet?_none_of_not_containsKey item f
        (containsKey_eq_false_of_not_mem item f hnot)
    simp [hnone]
    rfl
  · intro item h
    have hlen : item.length = PWC_CSV_HEADERS.length := by
      rw [← h]
      simp
    simp [pwc_write_row, hlen]

/-- Witness for `c5_amended_schema_stability`: a record carrying only
`benchmark_name` still fills the `modality` column (index 1) with the empty
string, and a fully-keyed PwC record yields a 19-cell row. -/
theorem c5_amended_witness :
    (save_to_csv_row [(str "benchmark_name", str "x")])[1]? = some (str "") ∧
    (pwc_write_row (PWC_CSV_HEADERS.map (fun h => (h, str "v")))).length =
      PWC_CSV_HEADERS.length := by
  constructor
  · exact c5_amended_schema_stability.2.1 [(str "benchmark_name", str "x")] 1
      (str "modality") (by decide) (by decide)
  · exact c5_amended_schema_stability.2.2
      (PWC_CSV_HEADERS.map (fun h => (h, str "v"))) (by decide)

/-- Claim C5 as stated is false for the PwC writer: a record missing the
`area`, `subtask` and `task` fields emits a 16-cell row against the
19-column declared header, because the writer's fieldnames are the record's
own keys. -/
theorem c5_counterexample :
    (pwc_write_row c5MissingFieldsRecord).length = 16 ∧
    PWC_CSV_HEADERS.length = 19 ∧
    c5MissingFieldsRecord.map Prod.fst = PWC_CSV_HEADERS.take 16 ∧
    (16 : Nat) ≠ 19 := by
  refine ⟨by decide, by decide, by decide, by decide⟩

theorem containsKey_eq_keys {V : Type} (m : List (Str × V)) (k : Str) :
    containsKey m k = (m.map Prod.fst).any (fun y => y = k) := by
  induction m with
  | nil => rfl
  | cons p n ih =>
    simp only [containsKey, List.any_cons, List.map_cons]
    rw [show ((n.any fun p => decide (p.1 = k))) = containsKey n k from rfl, ih]

theorem hfInitRecord_keys (dataset_name : Str) :
    (hfInitRecord dataset_name).map Prod.fst = BENCHMARK_FIELDS := by
  have k0 : ((BENCHMARK_FIELDS.map (fun f => (f, ([] : Str)))).map Prod.fst) =
      BENCHMARK_FIELDS := by
    decide
  have c1 : containsKey (BENCHMARK_FIELDS.map (fun f => (f, ([] : Str))))
      (str "benchmark_name") = true := by
    decide
  have k1 : (pyDictSet (BENCHMARK_FIELDS.map (fun f => (f, ([] : Str))))
      (str "benchmark_name") dataset_name).map Prod.fst = BENCHMARK_FIELDS := by
    rw [pyDictSet_keys]
    simp [c1, k0]
  have c2 : containsKey (pyDictSet (BENCHMARK_FIELDS.map (fun f => (f, ([] : Str))))
      (str "benchmark_name") dataset_name) (str "dataset_link") = true := by
    rw [containsKey_eq_keys, k1]
    decide
  rw [hfInitRecord, pyDictSet_keys]
  simp [c2, k1]

theorem runStepsHf_keys (steps : List ExtractStep)
    (hsteps : ∀ step ∈ steps, ∀ r r2, step r = Except.ok r2 →
      r2.map Prod.fst = r.map Prod.fst) :
    ∀ r : Record, (runStepsHf steps r).map Prod.fst = r.map Prod.fst := by
  induction steps with
  | nil => intro r; rfl
  | cons s t ih =>
    intro r
    simp only [runStepsHf]
    cases hs : s r with
    | ok r2 =>
      rw [ih (fun step hm => hsteps step (List.mem_cons_of_mem _ hm)) r2]
      exact hsteps s (List.mem_cons_self _ _) r r2 hs
    | error e => rfl

theorem runStepsHf_of_okPrefix (good : List ExtractStep) :
    ∀ (r0 rG : Record), runStepsPwc good r0 = some rG →
    ∀ (bad : ExtractStep) (rest : List ExtractStep), bad rG = Except.error () →
    runStepsHf (good ++ bad :: rest) r0 = rG := by
  induction good with
  | nil =>
    intro r0 rG h bad rest hbad
    obtain rfl := Option.some.inj h
    simp [runStepsHf, hbad]
  | cons s t ih =>
    intro r0 rG h bad rest hbad
    simp only [runStepsPwc] at h
    cases hs : s r0 with
    | ok r1 =>
      rw [hs] at h
      simp only [List.cons_append, runStepsHf, hs]
      exact ih r1 rG h bad rest hbad
    | error e =>
      rw [hs] at h
      exact Option.noConfusion h

/-- Claim C6, amended: in the Hugging Face extractor an exception is caught
and the page still yields the record with every field resolved before the
failure (defaults elsewhere, the full declared key set intact), and the
batch maps each page to exactly one record, pages independent of one
another; in the PwC extractor the exception is caught and logged but the
page yields no record at all (`process_html_file` returns `None`), the
batch skipping it and continuing with the remaining pages. -/
theorem c6_amended_error_handling :
    (∀ (dataset_name : Str) (good : List ExtractStep) (rG : Record)
        (bad : ExtractStep) (rest : List ExtractStep),
      runStepsPwc good (hfInitRecord dataset_name) = some rG →
      bad rG = Except.error () →
      extract_dataset_info_guarded dataset_name (good ++ bad :: rest) = rG) ∧
    (∀ (dataset_name : Str) (steps : List ExtractStep),
      (∀ step ∈ steps, ∀ r r2, step r = Except.ok r2 →
        r2.map Prod.fst = r.map Prod.fst) →
      (extract_dataset_info_guarded dataset_name steps).map Prod.fst =
        BENCHMARK_FIELDS) ∧
    (∀ jobs : List (Str × List ExtractStep), (hf_batch jobs).length = jobs.length) ∧
    (∀ jobs1 jobs2 : List (Str × List ExtractStep),
      hf_batch (jobs1 ++ jobs2) = hf_batch jobs1 ++ hf_batch jobs2) ∧
    (∀ (pre post : List (List ExtractStep × Record)) (bad : List ExtractStep)
        (r : Record),
      process_html_file_guarded bad r = none →
      pwc_batch (pre ++ (bad, r) :: post) = pwc_batch pre ++ pwc_batch post) := by
  refine ⟨?_, ?_, ?_, ?_, ?_⟩
  · intro dataset_name good rG bad rest hgood hbad
    exact runStepsHf_of_okPrefix good _ rG hgood bad rest hbad
  · intro dataset_name steps hsteps
    rw [extract_dataset_info_guarded, runStepsHf_keys steps hsteps,
      hfInitRecord_keys]
  · intro jobs
    simp [hf_batch]
  · intro jobs1 jobs2
    simp [hf_batch]
  · intro pre post bad r h
    simp [pwc_batch, List.filterMap_append, List.filterMap_cons, h]

/-- Witness for `c6_amended_error_handling`: with one successful statement
followed by a raising one, the Hugging Face extractor returns the record
holding the already-resolved modality. -/
theorem c6_amended_witness :
    extract_dataset_info_guarded (str "squad")
      [fun r => Except.ok (pyDictSet r (str "modality") (str "Text")),
       fun _ => Except.error (),
       fun r => Except.ok (pyDictSet r (str "domain") (str "General"))] =
      pyDictSet (hfInitRecord (str "squad")) (str "modality") (str "Text") := by
  exact c6_amended_error_handling.1 (str "squad")
    [fun r => Except.ok (pyDictSet r (str "modality") (str "Text"))]
    (pyDictSet (hfInitRecord (str "squad")) (str "modality") (str "Text"))
    (fun _ => Except.error ())
    [fun r => Except.ok (pyDictSet r (str "domain") (str "General"))]
    rfl rfl

/-- Claim C6 as stated is false for the PwC extractor: a body that resolves
`dataset_name` and then raises yields no record at all (`None`), not a
record with the already-resolved fields; the same failure shape in the
Hugging Face extractor does yield the partial record. -/
theorem c6_counterexample :
    process_html_file_guarded
      [fun r => Except.ok (pyDictSet r (str "dataset_name") (str "CIFAR-10")),
       fun _ => Except.error ()] [] = none ∧
    extract_dataset_info_guarded (str "cifar10")
      [fun r => Except.ok (pyDictSet r (str "modality") (str "Image")),
       fun _ => Except.error ()] =
      pyDictSet (hfInitRecord (str "cifar10")) (str "modality") (str "Image") := by
  exact ⟨rfl, rfl⟩

/-- Claim C7: the resolved canonical URL is the first value produced by the
ordered cascade (Open-Graph meta, canonical link, breadcrumb, dataset
anchor, title slug, filename slug) — each later strategy is consulted only
when every earlier one produced no value — and in particular, whenever the
Open-Graph strategy yields a value, that value is the result regardless of
the canonical link (or anything else) on the page. -/
theorem c7_cascade_first_match (page : PwcPage) (file_path : Str) :
    (extract_pwc_url page file_path =
      (firstSome (pwcUrlStrategies page file_path)).getD []) ∧
    (∀ v, ogUrlStrategy page = some v → extract_pwc_url page file_path = v) := by
  have hmain : extract_pwc_url page file_path =
      (firstSome (pwcUrlStrategies page file_path)).getD [] := by
    cases h1 : ogUrlStrategy page with
    | some u => simp [extract_pwc_url, pwcUrlStrategies, firstSome, h1]
    | none =>
      cases h2 : canonicalStrategy page with
      | some u => simp [extract_pwc_url, pwcUrlStrategies, firstSome, h1, h2]
      | none =>
        cases h3 : breadcrumbStrategy page with
        | some u => simp [extract_pwc_url, pwcUrlStrategies, firstSome, h1, h2, h3]
        | none =>
          cases h4 : datasetAnchorStrategy page with
          | some u =>
            simp [extract_pwc_url, pwcUrlStrategies, firstSome, h1, h2, h3, h4]
          | none =>
            cases h5 : titleSlugStrategy page with
            | some u =>
              simp [extract_pwc_url, pwcUrlStrategies, firstSome, h1, h2, h3, h4, h5]
            | none =>
              cases h6 : fileSlugStrategy file_path with
              | some u =>
                simp [extract_pwc_url, pwcUrlStrategies, firstSome,
                  h1, h2, h3, h4, h5, h6]
              | none =>
                simp [extract_pwc_url, pwcUrlStrategies, firstSome,
                  h1, h2, h3, h4, h5, h6]
  refine ⟨hmain, ?_⟩
  intro v hog
  rw [hmain]
  simp [pwcUrlStrategies, firstSome, hog]

/-- Witness for `c7_cascade_first_match`: a page carrying both an Open-Graph
URL meta tag and a canonical link tag with different values resolves to the
Open-Graph value. -/
theorem c7_witness :
    extract_pwc_url
      { metas := [{ property := some (str "og:url"),
                    content := some (str "https://paperswithcode.com/dataset/og-value") }],
        canonicalHref := some (str "https://paperswithcode.com/dataset/canonical-value"),
        breadcrumbHrefs := [], anchorHrefs := [], title := none }
      (str "pwc_x.html") = str "https://paperswithcode.com/dataset/og-value" := by
  exact (c7_cascade_first_match
    { metas := [{ property := some (str "og:url"),
                  content := some (str "https://paperswithcode.com/dataset/og-value") }],
      canonicalHref := some (str "https://paperswithcode.com/dataset/canonical-value"),
      breadcrumbHrefs := [], anchorHrefs := [], title := none }
    (str "pwc_x.html")).2 (str "https://paperswithcode.com/dataset/og-value")
    (by decide)

theorem dictGet?_isSome_of_containsKey {V : Type} (m : List (Str × V)) (k : Str)
    (h : containsKey m k = true) : ∃ v, dictGet? m k = some v := by
  induction m with
  | nil => simp [containsKey] at h
  | cons p m ih =>
    by_cases hp : p.1 = k
    · exact ⟨p.2, by simp [dictGet?, hp]⟩
    · simp only [containsKey, List.any_cons, Bool.or_eq_true] at h
      rcases h with h | h
    
      · exact absurd (of_decide_eq_true h) hp
      · obtain ⟨v, hv⟩ := ih h
        exact ⟨v, by simp [dictGet?, hp, hv]⟩

theorem ensureFold_get (keys : List Str) :
    ∀ (fs : List (Str × JsonVal)) (k : Str),
      dictGet? (keys.foldl
        (fun fs k => if jobjContains fs k then fs else fs ++ [(k, JsonVal.jarr [])])
        fs) k =
      match dictGet? fs k with
      | some v => some v
      | none => if k ∈ keys then some (JsonVal.jarr []) else none := by
  induction keys with
  | nil =>
    intro fs k
    cases h : dictGet? fs k <;> simp [h]
  | cons k0 keys ih =>
    intro fs k
    simp only [List.foldl_cons]
    by_cases hc : jobjContains fs k0
    · rw [if_pos hc, ih fs k]
      cases h : dictGet? fs k with
      | some v => simp
      | none =>
        by_cases hk : k = k0
        · subst hk
          obtain ⟨v, hv⟩ := dictGet?_isSome_of_containsKey fs k hc
          rw [hv] at h
          cases h
        · simp [List.mem_cons, hk]
    · rw [if_neg hc, ih (fs ++ [(k0, JsonVal.jarr [])]) k, dictGet?_append_one]
      cases h : dictGet? fs k with
      | some v => simp
      | none =>
        by_cases hk : k = k0
        · subst hk
          simp
        · simp [List.mem_cons, hk]

/-- Claim C10, amended: for an absent, unreadable or malformed progress
file `load_progress` returns the default dictionary in which all five keys
are bound to empty lists; for a file holding a JSON object it returns the
object with every missing key bound to a fresh empty list, while a key that
is already present keeps its stored value unchanged — even when that value
is not a list. -/
theorem c10_amended_load_progress (f : LedgerFile) :
    (load_progress LedgerFile.absent = defaultProgress ∧
     load_progress LedgerFile.unreadable = defaultProgress ∧
     load_progress LedgerFile.malformed = defaultProgress) ∧
    (∀ fields, f = LedgerFile.parsed (JsonVal.jobj fields) →
      (∀ k, k ∈ PROGRESS_KEYS →
        jobjGet? (load_progress f) k =
          (match dictGet? fields k with
           | some v => some v
           | none => some (JsonVal.jarr []))) ∧
      (∀ k v, dictGet? fields k = some v →
        jobjGet? (load_progress f) k = some v)) := by
  refine ⟨⟨rfl, rfl, rfl⟩, ?_⟩
  intro fields hf
  subst hf
  constructor
  · intro k hk
    show dictGet? (ensureKeys fields) k = _
    rw [ensureKeys, ensureFold_get]
    cases h : dictGet? fields k with
    | some v => simp
    | none => simp [hk]
  · intro k v hv
    show dictGet? (ensureKeys fields) k = some v
    rw [ensureKeys, ensureFold_get, hv]

/-- Witness for `c10_amended_load_progress`: a stored object binding
`processed_areas` to a plain string keeps that binding, and a missing
`processed_subtasks` key is filled with an empty list. -/
theorem c10_amended_witness :
    jobjGet? (load_progress (LedgerFile.parsed
        (JsonVal.jobj [(str "processed_areas", JsonVal.jstr (str "x"))])))
      (str "processed_subtasks") = some (JsonVal.jarr []) ∧
    jobjGet? (load_progress (LedgerFile.parsed
        (JsonVal.jobj [(str "processed_areas", JsonVal.jstr (str "x"))])))
      (str "processed_areas") = some (JsonVal.jstr (str "x")) := by
  constructor
  · have h := ((c10_amended_load_progress (LedgerFile.parsed
        (JsonVal.jobj [(str "processed_areas", JsonVal.jstr (str "x"))]))).2
        [(str "processed_areas", JsonVal.jstr (str "x"))] rfl).1
        (str "processed_subtasks") (by decide)
    exact h.trans rfl
  · exact ((c10_amended_load_progress (LedgerFile.parsed
        (JsonVal.jobj [(str "processed_areas", JsonVal.jstr (str "x"))]))).2
        [(str "processed_areas", JsonVal.jstr (str "x"))] rfl).2
        (str "processed_areas") (JsonVal.jstr (str "x")) rfl

/-- Claim C10 as stated is false: a valid stored object binding
`processed_areas` to the number `0` is returned with that key still bound
to `0`, which is not a list — the code only ensures the keys exist, never
that their values are lists. -/
theorem c10_counterexample :
    jobjGet? (load_progress (LedgerFile.parsed
        (JsonVal.jobj [(str "processed_areas", JsonVal.jnum 0)])))
      (str "processed_areas") = some (JsonVal.jnum 0) ∧
    isJList (JsonVal.jnum 0) = false := by
  exact ⟨rfl, rfl⟩
